import Mathlib

/-!
Verification of the terminal-window core of `src/terminal.c` (vim `:terminal`
support).  The definitions below are a shallow embedding of the C source:
structures mirror `struct terminal_S` and `sb_line_T`, and each function keeps
the name of the C function it embeds.  External collaborators (libvterm's
encoder, the colour-name table `lookup_color`, the attribute-index registry
`get_cterm_attr_idx`) are passed in as parameters; the host document (memline)
is modelled from the specification's host-document contract.
-/

set_option linter.unusedVariables false

/-! ## Basic cell and colour data (libvterm `VTermScreenCell`, `VTermColor`) -/

/-- RGB colour triple as libvterm reports it (`VTermColor`). -/
structure VTermColor where
  red : Nat
  green : Nat
  blue : Nat
deriving Repr, DecidableEq

/-- Attribute bits of one screen cell (`cell->attrs`). -/
structure CellAttrs where
  bold : Bool
  underline : Bool
  italic : Bool
  strike : Bool
  reverse : Bool
deriving Repr, DecidableEq

/-- One emulated screen cell (`VTermScreenCell`): code points (zero-terminated
in C, a list here), display width, colours and attribute bits. -/
structure VTermScreenCell where
  chars : List Nat
  width : Nat
  fg : VTermColor
  bg : VTermColor
  attrs : CellAttrs
deriving Repr, DecidableEq

/-- The first code point of a cell, `cell.chars[0]`; 0 means the cell is empty. -/
def cell_char0 (c : VTermScreenCell) : Nat := c.chars.headD 0

/-- A blank cell, as `vim_memset(&cell, 0, sizeof(cell))` produces. -/
def zero_cell : VTermScreenCell :=
  ⟨[], 0, ⟨0, 0, 0⟩, ⟨0, 0, 0⟩, ⟨false, false, false, false, false⟩⟩

/-! ## Damage tracking (`handle_damage`, claim C2)

`handle_damage` only touches the two dirty-range fields of `term_T`, so the
embedding carries just those.  `ex_terminal` allocates the structure with
`alloc_clear` (all fields zero) and then sets `tl_dirty_row_end = MAX_ROW`. -/

/-- `MAX_ROW` from terminal.c: used for `tl_dirty_row_end` to update all rows. -/
def MAX_ROW : Nat := 999999

/-- The dirty-row fields of `struct terminal_S`. -/
structure DirtyState where
  tl_dirty_row_start : Nat
  tl_dirty_row_end : Nat
deriving Repr, DecidableEq

/-- Dirty-range state of a freshly created session: `ex_terminal` clears the
struct (`tl_dirty_row_start = 0`) and sets `tl_dirty_row_end = MAX_ROW`. -/
def ex_terminal_dirty : DirtyState := ⟨0, MAX_ROW⟩

/-- The `handle_damage` callback: widen the dirty range with MIN/MAX over the
damaged rectangle's row span `[start_row, end_row)`. -/
def handle_damage (t : DirtyState) (rect : Nat × Nat) : DirtyState :=
  ⟨min t.tl_dirty_row_start rect.1, max t.tl_dirty_row_end rect.2⟩

/-- A finite sequence of damage callbacks delivered in order. -/
def damage_seq (t : DirtyState) (l : List (Nat × Nat)) : DirtyState :=
  l.foldl handle_damage t

/-! ## Colour quantization (`color2index`, claim C5)

`lookup_color` (the colour-name table) lives outside this file's source and is
passed as a parameter; `t_colors` is the host's colour count. -/

/-- Greyscale cutoff table from `color2index` (static int cutoff[23]). -/
def grey_cutoff : List Nat :=
  [0x05, 0x10, 0x1B, 0x26, 0x31, 0x3C, 0x47, 0x52,
   0x5D, 0x68, 0x73, 0x7F, 0x8A, 0x95, 0xA0, 0xAB,
   0xB6, 0xC1, 0xCC, 0xD7, 0xE2, 0xED, 0xF9]

/-- The 24-step greyscale scan of `color2index`: first `i` with
`red < cutoff[i]` yields `i + 233`, otherwise 256. -/
def grey_index_go (red : Nat) : List Nat → Nat → Int
  | [], _ => 256
  | c :: rest, i => if red < c then (i : Int) + 233 else grey_index_go red rest (i + 1)

/-- Greyscale ramp lookup used by `color2index` when `red = green = blue`. -/
def grey_index (red : Nat) : Int := grey_index_go red grey_cutoff 0

/-- Fallthrough of `color2index` when no standard palette entry matched:
the `t_colors >= 256` block (24-step greyscale or 6x6x6 cube), else 0. -/
def color2index_fallback (t_colors : Nat) (red green blue : Nat) : Int :=
  if 256 ≤ t_colors then
    if red = blue ∧ red = green then
      grey_index red
    else
      17 + ((red + 25) / 0x33) * 36 + ((green + 25) / 0x33) * 6 + (blue + 25) / 0x33
  else 0

/-- Reverse engineer the RGB value into a cterm colour index (`color2index`).
First colour is 1; 0 means no match found.  `lookup` is the external
`lookup_color` table keyed by the `color_names[]` index and foreground flag. -/
def color2index (lookup : Nat → Bool → Int) (t_colors : Nat)
    (color : VTermColor) (foreground : Bool) : Int :=
  let red := color.red
  let blue := color.blue
  let green := color.green
  if red = 0 then
    (if green = 0 then
      (if blue = 0 then lookup 0 foreground + 1
       else if blue = 224 then lookup 1 foreground + 1
       else color2index_fallback t_colors red green blue)
     else if green = 224 then
      (if blue = 0 then lookup 2 foreground + 1
       else if blue = 224 then lookup 3 foreground + 1
       else color2index_fallback t_colors red green blue)
     else color2index_fallback t_colors red green blue)
  else if red = 224 then
    (if green = 0 then
      (if blue = 0 then lookup 4 foreground + 1
       else if blue = 224 then lookup 5 foreground + 1
       else color2index_fallback t_colors red green blue)
     else if green = 224 then
      (if blue = 0 then lookup 6 foreground + 1
       else if blue = 224 then lookup 8 foreground + 1
       else color2index_fallback t_colors red green blue)
     else color2index_fallback t_colors red green blue)
  else if red = 128 then
    (if green = 128 ∧ blue = 128 then lookup 12 foreground + 1
     else color2index_fallback t_colors red green blue)
  else if red = 255 then
    (if green = 64 then
      (if blue = 64 then lookup 20 foreground + 1
       else if blue = 255 then lookup 22 foreground + 1
       else color2index_fallback t_colors red green blue)
     else if green = 255 then
      (if blue = 64 then lookup 24 foreground + 1
       else if blue = 255 then lookup 26 foreground + 1
       else color2index_fallback t_colors red green blue)
     else color2index_fallback t_colors red green blue)
  else if red = 64 then
    (if green = 64 then
      (if blue = 255 then lookup 14 foreground + 1
       else color2index_fallback t_colors red green blue)
     else if green = 255 then
      (if blue = 64 then lookup 16 foreground + 1
       else if blue = 255 then lookup 18 foreground + 1
       else color2index_fallback t_colors red green blue)
     else color2index_fallback t_colors red green blue)
  else color2index_fallback t_colors red green blue

/-- Whether an RGB triple hits one of the standard palette branches of
`color2index` (the branches returning `lookup_color(..) + 1`). -/
def standard_match (c : VTermColor) : Bool :=
  (c.red = 0 ∧ c.green = 0 ∧ (c.blue = 0 ∨ c.blue = 224)) ∨
  (c.red = 0 ∧ c.green = 224 ∧ (c.blue = 0 ∨ c.blue = 224)) ∨
  (c.red = 224 ∧ c.green = 0 ∧ (c.blue = 0 ∨ c.blue = 224)) ∨
  (c.red = 224 ∧ c.green = 224 ∧ (c.blue = 0 ∨ c.blue = 224)) ∨
  (c.red = 128 ∧ c.green = 128 ∧ c.blue = 128) ∨
  (c.red = 255 ∧ c.green = 64 ∧ (c.blue = 64 ∨ c.blue = 255)) ∨
  (c.red = 255 ∧ c.green = 255 ∧ (c.blue = 64 ∨ c.blue = 255)) ∨
  (c.red = 64 ∧ c.green = 64 ∧ c.blue = 255) ∨
  (c.red = 64 ∧ c.green = 255 ∧ (c.blue = 64 ∨ c.blue = 255))

/-- Round-to-nearest division, as the specification's `round(R/51)` reads. -/
def round_div (a b : Nat) : Nat := (2 * a + b) / (2 * b)

/-- The colour-cube index exactly as the specification words it:
`16 + 36*round(R/51) + 6*round(G/51) + round(B/51)`. -/
def spec_cube_index (r g b : Nat) : Int :=
  16 + 36 * (round_div r 51 : Int) + 6 * (round_div g 51 : Int) + (round_div b 51 : Int)

/-! ## Scrollback store and host document (claims C1, C3, C7)

The embedding carries the fields of `struct terminal_S` these functions touch:
the emulated screen behind `tl_vterm` (rows of cells; `none` once the vterm is
freed), the scrollback growarray, the scrolled-row counter, the host buffer's
lines, and the mode/closed flags.  Allocation outcomes (`alloc`, `ga_grow`)
are passed in as oracles so both the successful and the failing paths of the
C code are represented. -/

/-- One scrollback entry (`sb_line_T`): captured width and the owned cell
array (`none` models a NULL `sb_cells` pointer). -/
structure sb_line_T where
  sb_cols : Nat
  sb_cells : Option (List VTermScreenCell)
deriving Repr, DecidableEq

/-- The state touched by the scrollback/flush/mode functions of terminal.c. -/
structure TermBuf where
  tl_screen : Option (List (List VTermScreenCell))
  tl_scrollback : List sb_line_T
  tl_scrollback_scrolled : Nat
  tl_buffer : List (List Nat)
  tl_terminal_mode : Bool
  tl_channel_closed : Bool
deriving Repr, DecidableEq

/-- Effective width scan shared by `handle_pushline` and
`move_terminal_to_buffer`: `len` ends as `i + 1` for the last index `i` whose
cell has a non-zero first code point. -/
def eff_width_go : List VTermScreenCell → Nat → Nat → Nat
  | [], _, len => len
  | c :: rest, i, len => eff_width_go rest (i + 1) (if cell_char0 c ≠ 0 then i + 1 else len)

/-- Effective width of a row of cells (trailing empty cells trimmed). -/
def eff_width (cells : List VTermScreenCell) : Nat := eff_width_go cells 0 0

/-- Text of one cell as `add_scrollback_line_to_buffer` renders it: the first
code point always (0 becomes a space), then further code points while > 0. -/
def cell_text (c : VTermScreenCell) : List Nat :=
  match c.chars with
  | [] => [32]
  | c0 :: rest => (if c0 = 0 then 32 else c0) :: rest.takeWhile (fun x => 0 < x)

/-- Column loop of `add_scrollback_line_to_buffer`: step `col` by each cell's
width.  The C loop does not terminate if a cell reports width 0; the fuel
argument (strictly larger than `sb_cols` at the top-level call) makes the
embedding total while agreeing with the C code on all width >= 1 cells. -/
def sb_line_text_go (cells : List VTermScreenCell) (ncols : Nat) : Nat → Nat → List Nat
  | _, 0 => []
  | col, fuel + 1 =>
    if col < ncols then
      let c := cells.getD col zero_cell
      cell_text c ++ sb_line_text_go cells ncols (col + c.width) fuel
    else []

/-- Plain-text rendering of a scrollback entry.  When `sb_cells` is NULL and
`sb_cols > 0` the C code dereferences the NULL pointer (see claim C7); the
embedding returns the empty line there. -/
def sb_line_text (l : sb_line_T) : List Nat :=
  match l.sb_cells with
  | none => []
  | some cells => sb_line_text_go cells l.sb_cols 0 (l.sb_cols + 1)

/-- Modelled from the spec: the host-document `delete-line` operation
(vim's `ml_delete`, outside this source file).  A host document always keeps
at least one line: deleting the only line leaves one empty placeholder line;
otherwise the 1-based line `lnum` is removed. -/
def ml_delete (buf : List (List Nat)) (lnum : Nat) : List (List Nat) :=
  if buf.length ≤ 1 then [[]]
  else buf.eraseIdx (lnum - 1)

/-- Append the last scrollback entry's text to the host buffer
(`add_scrollback_line_to_buffer`): the line is appended after buffer line
`lnum = ga_len - 1` (host `append-line`, modelled as a list insertion), and if
this was the very first scrollback entry the placeholder empty line that an
empty host document holds is deleted (`ml_delete(2)`). -/
def add_scrollback_line_to_buffer (t : TermBuf) : TermBuf :=
  match t.tl_scrollback.getLast? with
  | none => t
  | some line =>
    let lnum := t.tl_scrollback.length - 1
    let buf1 := t.tl_buffer.insertIdx lnum (sb_line_text line)
    { t with tl_buffer := if lnum = 0 then ml_delete buf1 2 else buf1 }

/-- The `sb_pushline` callback (`handle_pushline`): a row evicted off the top
of the screen.  `gagrow` and `allocok` are the outcomes of `ga_grow` on the
scrollback growarray and of `alloc` for the cell copy.  With `ga_grow` OK the
entry is stored unconditionally — on cell-allocation failure with positive
width it gets `sb_cols = len > 0` and a NULL `sb_cells` (see claim C7). -/
def handle_pushline (gagrow allocok : Bool) (t : TermBuf)
    (cells : List VTermScreenCell) : TermBuf :=
  if gagrow then
    let len := eff_width cells
    let p : Option (List VTermScreenCell) :=
      if 0 < len ∧ allocok then some (cells.take len) else none
    let t1 := { t with tl_scrollback := t.tl_scrollback ++ [⟨len, p⟩],
                       tl_scrollback_scrolled := t.tl_scrollback_scrolled + 1 }
    add_scrollback_line_to_buffer t1
  else t

/-- Append one entry to the scrollback store and render it into the buffer
(the shared tail of both materialization paths in `move_terminal_to_buffer`). -/
def append_sb_line (l : sb_line_T) (t : TermBuf) : TermBuf :=
  add_scrollback_line_to_buffer { t with tl_scrollback := t.tl_scrollback ++ [l] }

/-- Drain of the `lines_skipped` counter in `move_terminal_to_buffer`: each
skipped empty row becomes a zero-width, NULL-cells scrollback entry. -/
def add_empty_lines : Nat → TermBuf → TermBuf
  | 0, t => t
  | sk + 1, t => add_empty_lines sk (append_sb_line ⟨0, none⟩ t)

/-- Row loop of `move_terminal_to_buffer`: empty rows are buffered in the
skip counter; a non-empty row first materializes the buffered empties, then
(if its cell buffer allocates — oracle `alloc` per row index) is stored with
its trimmed width. -/
def mttb_go (alloc : Nat → Bool) :
    List (List VTermScreenCell) → Nat → Nat → TermBuf → TermBuf
  | [], _, _, t => t
  | row :: rest, idx, sk, t =>
    let len := eff_width row
    if len = 0 then mttb_go alloc rest (idx + 1) (sk + 1) t
    else
      let t1 := add_empty_lines sk t
      let t2 := if alloc idx then append_sb_line ⟨len, some (row.take len)⟩ t1 else t1
      mttb_go alloc rest (idx + 1) 0 t2

/-- Flush the current screen into scrollback and buffer
(`move_terminal_to_buffer`).  The trailing window-cursor repositioning only
touches display state.  Callers only invoke this with a live vterm. -/
def move_terminal_to_buffer (alloc : Nat → Bool) (t : TermBuf) : TermBuf :=
  match t.tl_screen with
  | none => t
  | some rows => mttb_go alloc rows 0 0 t

/-- Set or clear Terminal-Normal mode (`set_terminal_mode`); the freed status
text cache is not part of this embedding. -/
def set_terminal_mode (t : TermBuf) (v : Bool) : TermBuf :=
  { t with tl_terminal_mode := v }

/-- Destroy the vterm handle (`term_free_vterm`). -/
def term_free_vterm (t : TermBuf) : TermBuf := { t with tl_screen := none }

/-- Flush the screen and free the vterm (`cleanup_vterm`). -/
def cleanup_vterm (alloc : Nat → Bool) (t : TermBuf) : TermBuf :=
  set_terminal_mode (term_free_vterm (move_terminal_to_buffer alloc t)) false

/-- Enter Terminal-Normal mode (`term_enter_terminal_mode`): flush the screen
contents into the buffer, then mark the mode. -/
def term_enter_terminal_mode (alloc : Nat → Bool) (t : TermBuf) : TermBuf :=
  set_terminal_mode (move_terminal_to_buffer alloc t) true

/-- Rollback loop of `term_leave_terminal_mode`: while the buffer holds more
lines than `tl_scrollback_scrolled`, delete the buffer's last line and free
the store's last entry, stopping when the store empties.  If the store is
already empty at the top of an iteration the C code frees
`ga_data[ga_len - 1]` with `ga_len = 0` — undefined behaviour, modelled as
`none`.  Each iteration shortens the store, so fuel
`tl_scrollback.length + 1` is exact; running out of fuel cannot happen from
the function's own call (see `term_leave_terminal_mode`). -/
def leave_loop : Nat → TermBuf → Option TermBuf
  | 0, _ => none
  | fuel + 1, t =>
    if t.tl_scrollback_scrolled < t.tl_buffer.length then
      if t.tl_scrollback.isEmpty then none
      else
        let t1 := { t with tl_buffer := ml_delete t.tl_buffer t.tl_buffer.length,
                           tl_scrollback := t.tl_scrollback.dropLast }
        if t1.tl_scrollback.isEmpty then some t1 else leave_loop fuel t1
    else some t

/-- Leave Terminal-Normal mode (`term_leave_terminal_mode`): roll back the
flushed lines, clear the mode, and — if the channel closed while frozen —
flush definitively and free the vterm (`cleanup_vterm`). -/
def term_leave_terminal_mode (alloc : Nat → Bool) (t : TermBuf) : Option TermBuf :=
  (leave_loop (t.tl_scrollback.length + 1) t).map (fun t1 =>
    let t2 := set_terminal_mode t1 false
    if t2.tl_channel_closed then cleanup_vterm alloc t2 else t2)

/-- Allocation oracle for runs in which every allocation succeeds. -/
def alloc_all : Nat → Bool := fun _ => true

/-- Screen rows with the trailing run of empty rows removed — the rows a
final flush materializes (claim C3's reading of the skip-count logic). -/
def trim_trailing_empty : List (List VTermScreenCell) → List (List VTermScreenCell)
  | [] => []
  | r :: rest =>
    let tl := trim_trailing_empty rest
    if tl.isEmpty ∧ eff_width r = 0 then [] else r :: tl

/-- The scrollback entry a flushed row becomes: zero-width with no cells for
an empty row, the trimmed cell prefix otherwise. -/
def row_entry (r : List VTermScreenCell) : sb_line_T :=
  if eff_width r = 0 then ⟨0, none⟩ else ⟨eff_width r, some (r.take (eff_width r))⟩

/-! ## Resize negotiation (`term_update_window`, claim C4) -/

/-- Geometry of one host window (`w_height`, `w_width`). -/
structure WinSize where
  w_height : Nat
  w_width : Nat
deriving Repr, DecidableEq

/-- The size fields of `struct terminal_S` used by the resize negotiation. -/
structure TermSizeState where
  tl_rows : Nat
  tl_cols : Nat
  tl_rows_fixed : Bool
  tl_cols_fixed : Bool
deriving Repr, DecidableEq

/-- Resize block of `term_update_window`: when the triggering window `wp`
disagrees with a non-fixed dimension, start from `wp`'s geometry (fixed
dimensions keep `tl_rows`/`tl_cols`) and take the minimum over every window
`twp` showing the terminal buffer (`ws`).  Returns the `(rows, cols)` passed
to `vterm_set_size`/`term_report_winsize`, or `none` when the guard does not
fire. -/
def term_update_window_resize (t : TermSizeState) (wp : WinSize) (ws : List WinSize) :
    Option (Nat × Nat) :=
  if (t.tl_rows_fixed = false ∧ t.tl_rows ≠ wp.w_height) ∨
     (t.tl_cols_fixed = false ∧ t.tl_cols ≠ wp.w_width) then
    some (ws.foldl (fun p twp =>
      (if t.tl_rows_fixed = false ∧ twp.w_height < p.1 then twp.w_height else p.1,
       if t.tl_cols_fixed = false ∧ twp.w_width < p.2 then twp.w_width else p.2))
      ((if t.tl_rows_fixed then t.tl_rows else wp.w_height),
       (if t.tl_cols_fixed then t.tl_cols else wp.w_width)))
  else none

/-! ## Cell attributes and the finished-session lookup (claims C9, C5)

`cell2attr` ORs the attribute bits and resolves both colours; the attribute
numeric values (vim.h `HL_*`) and the attribute-index registry
`get_cterm_attr_idx` are external, so they are fields of a configuration
record.  The GUI / termguicolors branches of `cell2attr` are conditional on
host state outside this core (`gui.in_use`, `p_tgc`); the embedding is the
cterm branch. -/

/-- External attribute environment of `cell2attr`. -/
structure AttrCfg where
  hl_bold : Nat
  hl_underline : Nat
  hl_italic : Nat
  hl_standout : Nat
  hl_inverse : Nat
  lookup_color : Nat → Bool → Int
  t_colors : Nat
  get_cterm_attr_idx : Nat → Int → Int → Int

/-- Convert the attributes of a vterm cell into an attribute index
(`cell2attr`, cterm path). -/
def cell2attr (cfg : AttrCfg) (cell : VTermScreenCell) : Int :=
  let attr := (if cell.attrs.bold then cfg.hl_bold else 0) |||
              (if cell.attrs.underline then cfg.hl_underline else 0) |||
              (if cell.attrs.italic then cfg.hl_italic else 0) |||
              (if cell.attrs.strike then cfg.hl_standout else 0) |||
              (if cell.attrs.reverse then cfg.hl_inverse else 0)
  cfg.get_cterm_attr_idx attr
    (color2index cfg.lookup_color cfg.t_colors cell.fg true)
    (color2index cfg.lookup_color cfg.t_colors cell.bg false)

/-- Attribute lookup for a buffer position of a finished terminal
(`term_get_attr`): 0 when the 1-based line number exceeds the store length or
the column reaches the captured width, otherwise the attribute of the stored
cell.  `none` marks the executions that are undefined in C: `lnum = 0`
(indexing `ga_data[-1]`) and a NULL `sb_cells` dereference. -/
def term_get_attr (cfg : AttrCfg) (t : TermBuf) (lnum col : Nat) : Option Int :=
  if t.tl_scrollback.length < lnum then some 0
  else if lnum = 0 then none
  else
    let line := t.tl_scrollback.getD (lnum - 1) ⟨0, none⟩
    if line.sb_cols ≤ col then some 0
    else
      match line.sb_cells with
      | none => none
      | some cells => some (cell2attr cfg (cells.getD col zero_cell))

/-! ## Feeding job output to the engine (`term_write_job_output`, claim C6)

The multibyte stepper `utf_ptr2len_len` lives in vim's mbyte layer outside
this source file; it is a parameter `charlen` here.  Its contract, used as a
hypothesis by the theorems: it always advances at least one byte, and it
never reports a multibyte length that would jump over a line-feed byte
(trail bytes of a validated sequence are in 0x80..0xBF).  The `max 1` below
only guards totality of the embedding and is the identity under that
contract. -/

/-- Inner scan of `term_write_job_output`: byte distance from the start of
`l` to the next line-feed, advancing by `charlen` over multibyte characters.
Like the C pointer `p`, the result can run past the end of the chunk when a
truncated multibyte sequence at the end reports a length beyond it. -/
def scan_to_nl (charlen : List Nat → Nat) : List Nat → Nat
  | [] => 0
  | b :: rest =>
    if b = 10 then 0
    else
      let k := max 1 (charlen (b :: rest))
      k + scan_to_nl charlen ((b :: rest).drop k)
termination_by l => l.length
decreasing_by
  simp only [List.length_drop, List.length_cons]
  omega

/-- The chunk with each line feed replaced by carriage-return line-feed —
the normalization claim C6 states. -/
def lf_to_crlf : List Nat → List Nat
  | [] => []
  | b :: rest => if b = 10 then 13 :: 10 :: lf_to_crlf rest else b :: lf_to_crlf rest

/-- Chunk loop of `term_write_job_output`: each iteration feeds the bytes up
to the next line feed with one `vterm_input_write` call, then feeds `"\r\n"`
in place of the line feed.  The result is the list of `vterm_input_write`
payloads in order. -/
def twjo_go (charlen : List Nat → Nat) : List Nat → List (List Nat)
  | [] => []
  | b :: rest =>
    let l := b :: rest
    let n := scan_to_nl charlen l
    if n < l.length ∧ l.getD n 0 = 10 then
      l.take n :: [13, 10] :: twjo_go charlen (l.drop (n + 1))
    else [l.take n]
termination_by l => l.length
decreasing_by
  simp only [List.length_drop, List.length_cons]
  omega

/-- Write job output `msg` to the vterm (`term_write_job_output`): the list of
byte strings fed to `vterm_input_write`, and whether
`vterm_screen_flush_damage` was requested before returning (it is the
function's final statement, hence always `true`). -/
def term_write_job_output (charlen : List Nat → Nat) (msg : List Nat) :
    List (List Nat) × Bool :=
  (twjo_go charlen msg, true)

/-! ## Key translation (`term_convert_key`, claims C10, C8)

The vterm keyboard/mouse encoders append bytes to the vterm's internal output
buffer, drained by `vterm_output_read`; the encoders are external and appear
as fields of `VTermEnc`. -/

/-- `KEY_BUF_LEN` from terminal.c. -/
def KEY_BUF_LEN : Nat := 200

/-- Named vterm key symbols used by `term_convert_key`. -/
inductive VTermKeySym where
  | VKEY_ENTER | VKEY_ESCAPE | VKEY_DEL | VKEY_DOWN | VKEY_END
  | VKEY_FUNCTION (n : Nat)
  | VKEY_HOME | VKEY_INS
  | VKEY_KP_0 | VKEY_KP_1 | VKEY_KP_2 | VKEY_KP_3 | VKEY_KP_4
  | VKEY_KP_5 | VKEY_KP_6 | VKEY_KP_7 | VKEY_KP_8 | VKEY_KP_9
  | VKEY_KP_DIVIDE | VKEY_KP_ENTER | VKEY_KP_MINUS | VKEY_KP_MULT
  | VKEY_KP_PLUS | VKEY_KP_PERIOD
  | VKEY_LEFT | VKEY_PAGEDOWN | VKEY_PAGEUP | VKEY_RIGHT | VKEY_UP | VKEY_TAB
deriving Repr, DecidableEq

/-- Vterm keyboard modifier. -/
inductive VTermModifier where
  | VMOD_NONE | VMOD_SHIFT | VMOD_CTRL
deriving Repr, DecidableEq

/-- The vterm handle as the key translator sees it: its pending output
buffer, drained by `vterm_output_read`. -/
structure VTermModel where
  output : List Nat
deriving Repr, DecidableEq

/-- External vterm encoders: bytes each call appends to the output buffer. -/
structure VTermEnc where
  keyboard_key : VTermKeySym → VTermModifier → List Nat
  keyboard_unichar : Nat → VTermModifier → List Nat
  mouse_event : Nat → Bool → List Nat
  start_paste : List Nat
  end_paste : List Nat

/-- Drain up to `maxlen` bytes from the vterm output buffer
(`vterm_output_read`). -/
def vterm_output_read (vt : VTermModel) (maxlen : Nat) : List Nat × VTermModel :=
  (vt.output.take maxlen, ⟨vt.output.drop maxlen⟩)

/-- Vim key codes appearing in `term_convert_key` / `send_keys_to_term`;
`ch c` is a plain character (the switch's default).  The cases guarded by
`FEAT_GUI`, `FEAT_GUI_TABLINE`, `FEAT_NETBEANS_INTG`, `FEAT_DND` and
`FEAT_AUTOCMD` are modelled as compiled in. -/
inductive TermKey where
  | CAR | ESC | K_BS | K_DEL | K_DOWN | K_S_DOWN | K_END | K_S_END | K_C_END
  | K_F1 | K_F2 | K_F3 | K_F4 | K_F5 | K_F6 | K_F7 | K_F8 | K_F9
  | K_F10 | K_F11 | K_F12
  | K_HOME | K_S_HOME | K_C_HOME | K_INS
  | K_K0 | K_K1 | K_K2 | K_K3 | K_K4 | K_K5 | K_K6 | K_K7 | K_K8 | K_K9
  | K_KDEL | K_KDIVIDE | K_KEND | K_KENTER | K_KHOME | K_KINS | K_KMINUS
  | K_KMULTIPLY | K_KPAGEDOWN | K_KPAGEUP | K_KPLUS | K_KPOINT
  | K_LEFT | K_S_LEFT | K_C_LEFT | K_PAGEDOWN | K_PAGEUP
  | K_RIGHT | K_S_RIGHT | K_C_RIGHT | K_UP | K_S_UP | TAB
  | K_MOUSEUP | K_MOUSEDOWN | K_MOUSELEFT | K_MOUSERIGHT
  | K_LEFTMOUSE | K_LEFTMOUSE_NM | K_LEFTDRAG | K_LEFTRELEASE | K_LEFTRELEASE_NM
  | K_MIDDLEMOUSE | K_MIDDLEDRAG | K_MIDDLERELEASE
  | K_RIGHTMOUSE | K_RIGHTDRAG | K_RIGHTRELEASE
  | K_X1MOUSE | K_X1DRAG | K_X1RELEASE | K_X2MOUSE | K_X2DRAG | K_X2RELEASE
  | K_IGNORE | K_NOP | K_UNDO | K_HELP | K_XF1 | K_XF2 | K_XF3 | K_XF4
  | K_SELECT | K_VER_SCROLLBAR | K_HOR_SCROLLBAR | K_TABLINE | K_TABMENU
  | K_F21 | K_DROP | K_CURSORHOLD | K_PS | K_PE | K_ZERO
  | ch (c : Nat)

/-- Feed a named key to the vterm and drain the escape sequence
(`vterm_keyboard_key` + `vterm_output_read`). -/
def conv_vkey (enc : VTermEnc) (vt : VTermModel) (key : VTermKeySym)
    (m : VTermModifier) : List Nat × VTermModel :=
  vterm_output_read ⟨vt.output ++ enc.keyboard_key key m⟩ KEY_BUF_LEN

/-- Feed a plain character to the vterm and drain the bytes
(`vterm_keyboard_unichar` + `vterm_output_read`). -/
def conv_unichar (enc : VTermEnc) (vt : VTermModel) (c : Nat)
    (m : VTermModifier) : List Nat × VTermModel :=
  vterm_output_read ⟨vt.output ++ enc.keyboard_unichar c m⟩ KEY_BUF_LEN

/-- Send a mouse position and click to the vterm (`term_send_mouse`:
`vterm_mouse_move` + `vterm_mouse_button`), then drain. -/
def conv_mouse (enc : VTermEnc) (vt : VTermModel) (button : Nat)
    (pressed : Bool) : List Nat × VTermModel :=
  vterm_output_read ⟨vt.output ++ enc.mouse_event button pressed⟩ KEY_BUF_LEN

/-- Convert typed key `c` into the bytes to send to the job
(`term_convert_key`): each arm mirrors one case label of the C switch; keys
the switch sends nowhere return zero bytes.  `K_PS`/`K_PE` invoke the paste
encoder and return 0 without draining.  The default arm feeds the character
through `vterm_keyboard_unichar`; `K_BS` rebinds `c` to `BS` (0x08) and falls
through to it. -/
def term_convert_key (enc : VTermEnc) (vt : VTermModel) (c : TermKey) :
    List Nat × VTermModel :=
  match c with
  | .CAR => conv_vkey enc vt .VKEY_ENTER .VMOD_NONE
  | .ESC => conv_vkey enc vt .VKEY_ESCAPE .VMOD_NONE
  | .K_BS => conv_unichar enc vt 0x08 .VMOD_NONE
  | .K_DEL => conv_vkey enc vt .VKEY_DEL .VMOD_NONE
  | .K_DOWN => conv_vkey enc vt .VKEY_DOWN .VMOD_NONE
  | .K_S_DOWN => conv_vkey enc vt .VKEY_DOWN .VMOD_SHIFT
  | .K_END => conv_vkey enc vt .VKEY_END .VMOD_NONE
  | .K_S_END => conv_vkey enc vt .VKEY_END .VMOD_SHIFT
  | .K_C_END => conv_vkey enc vt .VKEY_END .VMOD_CTRL
  | .K_F10 => conv_vkey enc vt (.VKEY_FUNCTION 10) .VMOD_NONE
  | .K_F11 => conv_vkey enc vt (.VKEY_FUNCTION 11) .VMOD_NONE
  | .K_F12 => conv_vkey enc vt (.VKEY_FUNCTION 12) .VMOD_NONE
  | .K_F1 => conv_vkey enc vt (.VKEY_FUNCTION 1) .VMOD_NONE
  | .K_F2 => conv_vkey enc vt (.VKEY_FUNCTION 2) .VMOD_NONE
  | .K_F3 => conv_vkey enc vt (.VKEY_FUNCTION 3) .VMOD_NONE
  | .K_F4 => conv_vkey enc vt (.VKEY_FUNCTION 4) .VMOD_NONE
  | .K_F5 => conv_vkey enc vt (.VKEY_FUNCTION 5) .VMOD_NONE
  | .K_F6 => conv_vkey enc vt (.VKEY_FUNCTION 6) .VMOD_NONE
  | .K_F7 => conv_vkey enc vt (.VKEY_FUNCTION 7) .VMOD_NONE
  | .K_F8 => conv_vkey enc vt (.VKEY_FUNCTION 8) .VMOD_NONE
  | .K_F9 => conv_vkey enc vt (.VKEY_FUNCTION 9) .VMOD_NONE
  | .K_HOME => conv_vkey enc vt .VKEY_HOME .VMOD_NONE
  | .K_S_HOME => conv_vkey enc vt .VKEY_HOME .VMOD_SHIFT
  | .K_C_HOME => conv_vkey enc vt .VKEY_HOME .VMOD_CTRL
  | .K_INS => conv_vkey enc vt .VKEY_INS .VMOD_NONE
  | .K_K0 => conv_vkey enc vt .VKEY_KP_0 .VMOD_NONE
  | .K_K1 => conv_vkey enc vt .VKEY_KP_1 .VMOD_NONE
  | .K_K2 => conv_vkey enc vt .VKEY_KP_2 .VMOD_NONE
  | .K_K3 => conv_vkey enc vt .VKEY_KP_3 .VMOD_NONE
  | .K_K4 => conv_vkey enc vt .VKEY_KP_4 .VMOD_NONE
  | .K_K5 => conv_vkey enc vt .VKEY_KP_5 .VMOD_NONE
  | .K_K6 => conv_vkey enc vt .VKEY_KP_6 .VMOD_NONE
  | .K_K7 => conv_vkey enc vt .VKEY_KP_7 .VMOD_NONE
  | .K_K8 => conv_vkey enc vt .VKEY_KP_8 .VMOD_NONE
  | .K_K9 => conv_vkey enc vt .VKEY_KP_9 .VMOD_NONE
  | .K_KDEL => conv_vkey enc vt .VKEY_DEL .VMOD_NONE
  | .K_KDIVIDE => conv_vkey enc vt .VKEY_KP_DIVIDE .VMOD_NONE
  | .K_KEND => conv_vkey enc vt .VKEY_KP_1 .VMOD_NONE
  | .K_KENTER => conv_vkey enc vt .VKEY_KP_ENTER .VMOD_NONE
  | .K_KHOME => conv_vkey enc vt .VKEY_KP_7 .VMOD_NONE
  | .K_KINS => conv_vkey enc vt .VKEY_KP_0 .VMOD_NONE
  | .K_KMINUS => conv_vkey enc vt .VKEY_KP_MINUS .VMOD_NONE
  | .K_KMULTIPLY => conv_vkey enc vt .VKEY_KP_MULT .VMOD_NONE
  | .K_KPAGEDOWN => conv_vkey enc vt .VKEY_KP_3 .VMOD_NONE
  | .K_KPAGEUP => conv_vkey enc vt .VKEY_KP_9 .VMOD_NONE
  | .K_KPLUS => conv_vkey enc vt .VKEY_KP_PLUS .VMOD_NONE
  | .K_KPOINT => conv_vkey enc vt .VKEY_KP_PERIOD .VMOD_NONE
  | .K_LEFT => conv_vkey enc vt .VKEY_LEFT .VMOD_NONE
  | .K_S_LEFT => conv_vkey enc vt .VKEY_LEFT .VMOD_SHIFT
  | .K_C_LEFT => conv_vkey enc vt .VKEY_LEFT .VMOD_CTRL
  | .K_PAGEDOWN => conv_vkey enc vt .VKEY_PAGEDOWN .VMOD_NONE
  | .K_PAGEUP => conv_vkey enc vt .VKEY_PAGEUP .VMOD_NONE
  | .K_RIGHT => conv_vkey enc vt .VKEY_RIGHT .VMOD_NONE
  | .K_S_RIGHT => conv_vkey enc vt .VKEY_RIGHT .VMOD_SHIFT
  | .K_C_RIGHT => conv_vkey enc vt .VKEY_RIGHT .VMOD_CTRL
  | .K_UP => conv_vkey enc vt .VKEY_UP .VMOD_NONE
  | .K_S_UP => conv_vkey enc vt .VKEY_UP .VMOD_SHIFT
  | .TAB => conv_vkey enc vt .VKEY_TAB .VMOD_NONE
  | .K_MOUSEUP => conv_mouse enc vt 5 true
  | .K_MOUSEDOWN => conv_mouse enc vt 4 true
  | .K_MOUSELEFT => ([], vt)
  | .K_MOUSERIGHT => ([], vt)
  | .K_LEFTMOUSE => conv_mouse enc vt 1 true
  | .K_LEFTMOUSE_NM => conv_mouse enc vt 1 true
  | .K_LEFTDRAG => conv_mouse enc vt 1 true
  | .K_LEFTRELEASE => conv_mouse enc vt 1 false
  | .K_LEFTRELEASE_NM => conv_mouse enc vt 1 false
  | .K_MIDDLEMOUSE => conv_mouse enc vt 2 true
  | .K_MIDDLEDRAG => conv_mouse enc vt 2 true
  | .K_MIDDLERELEASE => conv_mouse enc vt 2 false
  | .K_RIGHTMOUSE => conv_mouse enc vt 3 true
  | .K_RIGHTDRAG => conv_mouse enc vt 3 true
  | .K_RIGHTRELEASE => conv_mouse enc vt 3 false
  | .K_X1MOUSE => ([], vt)
  | .K_X1DRAG => ([], vt)
  | .K_X1RELEASE => ([], vt)
  | .K_X2MOUSE => ([], vt)
  | .K_X2DRAG => ([], vt)
  | .K_X2RELEASE => ([], vt)
  | .K_IGNORE => ([], vt)
  | .K_NOP => ([], vt)
  | .K_UNDO => ([], vt)
  | .K_HELP => ([], vt)
  | .K_XF1 => conv_vkey enc vt (.VKEY_FUNCTION 1) .VMOD_NONE
  | .K_XF2 => conv_vkey enc vt (.VKEY_FUNCTION 2) .VMOD_NONE
  | .K_XF3 => conv_vkey enc vt (.VKEY_FUNCTION 3) .VMOD_NONE
  | .K_XF4 => conv_vkey enc vt (.VKEY_FUNCTION 4) .VMOD_NONE
  | .K_SELECT => ([], vt)
  | .K_VER_SCROLLBAR => ([], vt)
  | .K_HOR_SCROLLBAR => ([], vt)
  | .K_TABLINE => ([], vt)
  | .K_TABMENU => ([], vt)
  | .K_F21 => conv_vkey enc vt (.VKEY_FUNCTION 21) .VMOD_NONE
  | .K_DROP => ([], vt)
  | .K_CURSORHOLD => ([], vt)
  | .K_PS => ([], ⟨vt.output ++ enc.start_paste⟩)
  | .K_PE => ([], ⟨vt.output ++ enc.end_paste⟩)
  | .K_ZERO => conv_unichar enc vt 0 .VMOD_NONE
  | .ch c0 => conv_unichar enc vt c0 .VMOD_NONE

/-- Keys whose `term_convert_key` arm is a bare `return 0`: not representable
(or paste markers), so zero bytes are produced. -/
def drop_key (c : TermKey) : Bool :=
  match c with
  | .K_MOUSELEFT | .K_MOUSERIGHT
  | .K_X1MOUSE | .K_X1DRAG | .K_X1RELEASE
  | .K_X2MOUSE | .K_X2DRAG | .K_X2RELEASE
  | .K_IGNORE | .K_NOP | .K_UNDO | .K_HELP | .K_SELECT
  | .K_VER_SCROLLBAR | .K_HOR_SCROLLBAR | .K_TABLINE | .K_TABMENU
  | .K_DROP | .K_CURSORHOLD | .K_PS | .K_PE => true
  | _ => false

/-! ## Session-level input/output entry points (claim C8) -/

/-- Mouse-geometry facts of the current window used by `send_keys_to_term`
(`mouse_row`/`mouse_col` against the window frame, and the static
`mouse_was_outside`). -/
structure MouseEnv where
  in_window : Bool
  was_outside : Bool

/-- The mouse-click case labels of `send_keys_to_term`. -/
def mouse_click_key (c : TermKey) : Bool :=
  match c with
  | .K_LEFTDRAG | .K_MIDDLEDRAG | .K_RIGHTDRAG | .K_X1DRAG | .K_X2DRAG
  | .K_LEFTMOUSE | .K_LEFTMOUSE_NM | .K_LEFTRELEASE | .K_LEFTRELEASE_NM
  | .K_MIDDLEMOUSE | .K_MIDDLERELEASE | .K_RIGHTMOUSE | .K_RIGHTRELEASE
  | .K_X1MOUSE | .K_X1RELEASE | .K_X2MOUSE | .K_X2RELEASE => true
  | _ => false

/-- The drag case labels of `send_keys_to_term` (fall through to the click
labels after latching `dragging_outside`). -/
def mouse_drag_key (c : TermKey) : Bool :=
  match c with
  | .K_LEFTDRAG | .K_MIDDLEDRAG | .K_RIGHTDRAG | .K_X1DRAG | .K_X2DRAG => true
  | _ => false

/-- Whether `send_keys_to_term` hands the key back to Normal mode (its FAIL
returns): NUL and K_ZERO, K_IGNORE, and mouse clicks outside the window. -/
def send_keys_normal_mode (env : MouseEnv) (c : TermKey) : Bool :=
  match c with
  | .ch 0 => true
  | .K_ZERO => true
  | .K_IGNORE => true
  | _ => mouse_click_key c &&
         (!env.in_window || (mouse_drag_key c && env.was_outside))

/-- Send one key to the terminal job (`send_keys_to_term`): Normal-mode
catches first, then `term_convert_key`, then `channel_send` when the byte
count is positive.  Returns the bytes handed to `channel_send` ([] when
nothing was sent) and the updated vterm. -/
def send_keys_to_term (enc : VTermEnc) (env : MouseEnv) (vt : VTermModel)
    (c : TermKey) : List Nat × VTermModel :=
  if send_keys_normal_mode env c then ([], vt)
  else term_convert_key enc vt c

/-- The engine-facing fields a session exposes to `write_to_term` and
`f_term_sendkeys`: the nullable vterm handle. -/
structure TermIO where
  tl_vterm : Option VTermModel

/-- Write received job output to the terminal of a buffer (`write_to_term`):
when the vterm is already gone, log and return without feeding anything and
without flushing damage; otherwise run `term_write_job_output`.  Result:
updated session, `vterm_input_write` payloads, and whether damage was
flushed. -/
def write_to_term (charlen : List Nat → Nat) (t : TermIO) (msg : List Nat) :
    TermIO × List (List Nat) × Bool :=
  match t.tl_vterm with
  | none => (t, [], false)
  | some _ =>
    let (writes, flushed) := term_write_job_output charlen msg
    (t, writes, flushed)

/-- The `term_sendkeys(buf, keys)` function (`f_term_sendkeys`): returns
immediately when the vterm is gone, otherwise sends each character of the
message through `send_keys_to_term` (typed = FALSE).  Result: the non-empty
`channel_send` payloads in order, and the updated session. -/
def f_term_sendkeys (enc : VTermEnc) (env : MouseEnv) (t : TermIO)
    (msg : List Nat) : List (List Nat) × TermIO :=
  match t.tl_vterm with
  | none => ([], t)
  | some vt =>
    let r := msg.foldl (fun (acc : List (List Nat) × VTermModel) c0 =>
      let (sent, vt2) := send_keys_to_term enc env acc.2 (.ch c0)
      (acc.1 ++ (if sent.isEmpty then [] else [sent]), vt2)) ([], vt)
    (r.1, { tl_vterm := some r.2 })

/-- Well-formedness of one scrollback entry: the recorded width matches the
cell array (a NULL array only with width 0) — the invariant claim C7 states
and `term_get_attr`'s correctness relies on. -/
def sb_line_wf (l : sb_line_T) : Bool :=
  match l.sb_cells with
  | none => l.sb_cols == 0
  | some cs => cs.length == l.sb_cols

/-- Well-formedness of the whole scrollback store. -/
def sb_wf (sb : List sb_line_T) : Bool := sb.all sb_line_wf

/-! ## Theorems -/

theorem foldl_min_le_init (l : List Nat) : ∀ a : Nat, l.foldl min a ≤ a := by
  induction l with
  | nil => intro a; simp
  | cons x xs ih =>
    intro a
    calc xs.foldl min (min a x) ≤ min a x := ih (min a x)
      _ ≤ a := Nat.min_le_left _ _

theorem le_foldl_max_init (l : List Nat) : ∀ a : Nat, a ≤ l.foldl max a := by
  induction l with
  | nil => intro a; simp
  | cons x xs ih =>
    intro a
    calc a ≤ max a x := Nat.le_max_left _ _
      _ ≤ xs.foldl max (max a x) := ih (max a x)

theorem damage_seq_eq (l : List (Nat × Nat)) : ∀ t : DirtyState,
    damage_seq t l =
      ⟨(l.map Prod.fst).foldl min t.tl_dirty_row_start,
       (l.map Prod.snd).foldl max t.tl_dirty_row_end⟩ := by
  induction l with
  | nil => intro t; rfl
  | cons r rs ih =>
    intro t
    simp only [damage_seq, List.foldl_cons, List.map_cons]
    exact ih ⟨min t.tl_dirty_row_start r.1, max t.tl_dirty_row_end r.2⟩

theorem foldl_min_perm {l l' : List Nat} (hp : l.Perm l') :
    ∀ a : Nat, l.foldl min a = l'.foldl min a := by
  induction hp with
  | nil => intro a; rfl
  | cons x _ ih => intro a; simp only [List.foldl_cons]; exact ih _
  | swap x y l =>
    intro a
    simp only [List.foldl_cons]
    have h : min (min a y) x = min (min a x) y := by omega
    rw [h]
  | trans _ _ ih1 ih2 => intro a; exact (ih1 a).trans (ih2 a)

theorem foldl_max_perm {l l' : List Nat} (hp : l.Perm l') :
    ∀ a : Nat, l.foldl max a = l'.foldl max a := by
  induction hp with
  | nil => intro a; rfl
  | cons x _ ih => intro a; simp only [List.foldl_cons]; exact ih _
  | swap x y l =>
    intro a
    simp only [List.foldl_cons]
    have h : max (max a y) x = max (max a x) y := by omega
    rw [h]
  | trans _ _ ih1 ih2 => intro a; exact (ih1 a).trans (ih2 a)

/-- C2 (counterexample): on a freshly created session the dirty range is
already `[0, MAX_ROW)` (full redraw pending), so a single damage callback
`[3,5)` does not produce the claimed `[min aᵢ, max bᵢ) = [3,5)`. -/
theorem handle_damage_fresh_counterexample :
    damage_seq ex_terminal_dirty [(3, 5)] = ⟨0, MAX_ROW⟩ ∧
    damage_seq ex_terminal_dirty [(3, 5)] ≠ ⟨3, 5⟩ := by
  constructor
  · rfl
  · decide

/-- C2 (amended): for any sequence of damage callbacks, the dirty range ends
as the union of the initial range with all damaged spans — on a fresh session
`[min(0, min aᵢ), max(MAX_ROW, max bᵢ))`, the session being born fully dirty.
The result is independent of delivery order, and no callback sequence ever
narrows an existing range (start non-increasing, end non-decreasing). -/
theorem handle_damage_union (l l' : List (Nat × Nat)) :
    (damage_seq ex_terminal_dirty l =
      ⟨(l.map Prod.fst).foldl min 0, (l.map Prod.snd).foldl max MAX_ROW⟩) ∧
    (l.Perm l' → damage_seq ex_terminal_dirty l = damage_seq ex_terminal_dirty l') ∧
    (∀ t : DirtyState,
      (damage_seq t l).tl_dirty_row_start ≤ t.tl_dirty_row_start ∧
      t.tl_dirty_row_end ≤ (damage_seq t l).tl_dirty_row_end) := by
  refine ⟨damage_seq_eq l ex_terminal_dirty, ?_, ?_⟩
  · intro hp
    rw [damage_seq_eq l, damage_seq_eq l']
    rw [foldl_min_perm (hp.map Prod.fst), foldl_max_perm (hp.map Prod.snd)]
  · intro t
    rw [damage_seq_eq l t]
    exact ⟨foldl_min_le_init _ _, le_foldl_max_init _ _⟩

/-- C2 (witness): order independence and the union shape at a concrete pair
of permuted callback sequences. -/
theorem handle_damage_union_witness :
    damage_seq ex_terminal_dirty [(3, 5), (1, 9)] =
      damage_seq ex_terminal_dirty [(1, 9), (3, 5)] ∧
    damage_seq ex_terminal_dirty [(3, 5), (1, 9)] = ⟨0, MAX_ROW⟩ := by
  constructor
  · exact (handle_damage_union [(3, 5), (1, 9)] [(1, 9), (3, 5)]).2.1 (by decide)
  · exact (handle_damage_union [(3, 5), (1, 9)] []).1

theorem grey_index_go_cases (red : Nat) :
    ∀ (l : List Nat) (i : Nat),
      grey_index_go red l i = 256 ∨
      ∃ j : Nat, i ≤ j ∧ j < i + l.length ∧ grey_index_go red l i = (j : Int) + 233 := by
  intro l
  induction l with
  | nil => intro i; left; rfl
  | cons c rest ih =>
    intro i
    simp only [grey_index_go]
    by_cases h : red < c
    · right
      refine ⟨i, le_refl i, ?_, by simp [h]⟩
      simp
    · rcases ih (i + 1) with h1 | ⟨j, hj1, hj2, hj3⟩
      · left; simp [h, h1]
      · right
        refine ⟨j, by omega, ?_, by simp [h, hj3]⟩
        simp only [List.length_cons]
        omega

theorem grey_index_bounds (red : Nat) :
    233 ≤ grey_index red ∧ grey_index red ≤ 256 := by
  unfold grey_index
  rcases grey_index_go_cases red grey_cutoff 0 with h | ⟨j, hj1, hj2, hj3⟩
  · rw [h]; omega
  · rw [hj3]
    have hlen : grey_cutoff.length = 23 := by rfl
    rw [hlen] at hj2
    omega

set_option maxHeartbeats 1000000 in
theorem color2index_no_match (lookup : Nat → Bool → Int) (t_colors : Nat)
    (c : VTermColor) (fg : Bool) (h : standard_match c = false) :
    color2index lookup t_colors c fg =
      color2index_fallback t_colors c.red c.green c.blue := by
  obtain ⟨r, g, b⟩ := c
  simp only [standard_match, decide_eq_false_iff_not] at h
  simp only [color2index]
  split_ifs <;> first | rfl | (exfalso; apply h; simp_all)

theorem round_div_51 (a : Nat) : round_div a 51 = (a + 25) / 51 := by
  unfold round_div
  omega

/-- C5 (counterexample): the unmatched triple (1,0,0) on a 256-colour host:
the code returns the one-based cube index 17, not the specification's
`16 + 36*round(R/51) + 6*round(G/51) + round(B/51) = 16`. -/
theorem color2index_cube_counterexample :
    standard_match ⟨1, 0, 0⟩ = false ∧
    color2index (fun _ _ => 0) 256 ⟨1, 0, 0⟩ true = 17 ∧
    spec_cube_index 1 0 0 = 16 ∧ (17 : Int) ≠ 16 := by
  refine ⟨by decide, by decide, by decide, by decide⟩

/-- C5 (amended): for a host with at least 256 colours, an RGB triple that
matches no standard palette entry maps, when R=G=B, into the 24 greyscale
indices 233..256, and otherwise to `1 + (16 + 36*round(R/51) + 6*round(G/51)
+ round(B/51))` — one more than the specification's cube formula, the
function's indices being one-based ("first color is 1").  For a low-palette
host with no standard match the result is 0 (no colour override). -/
theorem color2index_unmatched (lookup : Nat → Bool → Int) (t_colors : Nat)
    (c : VTermColor) (fg : Bool) (h : standard_match c = false) :
    (256 ≤ t_colors → c.red = c.blue ∧ c.red = c.green →
      233 ≤ color2index lookup t_colors c fg ∧
      color2index lookup t_colors c fg ≤ 256) ∧
    (256 ≤ t_colors → ¬(c.red = c.blue ∧ c.red = c.green) →
      color2index lookup t_colors c fg =
        1 + spec_cube_index c.red c.green c.blue) ∧
    (t_colors < 256 → color2index lookup t_colors c fg = 0) := by
  rw [color2index_no_match lookup t_colors c fg h]
  unfold color2index_fallback
  refine ⟨?_, ?_, ?_⟩
  · intro h1 h2
    simp only [if_pos h1, if_pos h2]
    exact grey_index_bounds c.red
  · intro h1 h2
    simp only [if_pos h1, if_neg h2]
    unfold spec_cube_index
    rw [round_div_51, round_div_51, round_div_51]
    push_cast
    ring
  · intro h1
    rw [if_neg (by omega)]

/-- C5 (witness): the amended mapping at concrete triples — a grey, a cube
colour, and a low-palette host. -/
theorem color2index_unmatched_witness :
    (233 ≤ color2index (fun _ _ => 0) 256 ⟨10, 10, 10⟩ true ∧
     color2index (fun _ _ => 0) 256 ⟨10, 10, 10⟩ true ≤ 256) ∧
    color2index (fun _ _ => 0) 256 ⟨1, 0, 0⟩ true = 1 + spec_cube_index 1 0 0 ∧
    color2index (fun _ _ => 0) 8 ⟨1, 0, 0⟩ true = 0 := by
  refine ⟨((color2index_unmatched (fun _ _ => 0) 256 ⟨10, 10, 10⟩ true
      (by decide)).1 (by decide) (by decide)), ?_, ?_⟩
  · exact (color2index_unmatched (fun _ _ => 0) 256 ⟨1, 0, 0⟩ true
      (by decide)).2.1 (by decide) (by decide)
  · exact (color2index_unmatched (fun _ _ => 0) 8 ⟨1, 0, 0⟩ true
      (by decide)).2.2 (by decide)

theorem foldl_min_le_mem (l : List Nat) : ∀ (a x : Nat), x ∈ l → l.foldl min a ≤ x := by
  induction l with
  | nil => intro a x hx; cases hx
  | cons y ys ih =>
    intro a x hx
    rcases List.mem_cons.mp hx with h | h
    · subst h
      calc ys.foldl min (min a x) ≤ min a x := foldl_min_le_init ys (min a x)
        _ ≤ x := Nat.min_le_right _ _
    · exact ih (min a y) x h

theorem foldl_min_mem (l : List Nat) : ∀ a : Nat, l.foldl min a = a ∨ l.foldl min a ∈ l := by
  induction l with
  | nil => intro a; left; rfl
  | cons y ys ih =>
    intro a
    rcases ih (min a y) with h | h
    · rcases min_choice a y with hc | hc
      · left; simp only [List.foldl_cons]; rw [h, hc]
      · right; simp only [List.foldl_cons]; rw [h, hc]; exact List.mem_cons_self _ _
    · right; exact List.mem_cons_of_mem _ h

theorem if_lt_min (a b : Nat) : (if b < a then b else a) = min a b := by
  split <;> omega

theorem resize_foldl_split (t : TermSizeState) (ws : List WinSize) :
    ∀ r c : Nat,
      ws.foldl (fun p twp =>
        (if t.tl_rows_fixed = false ∧ twp.w_height < p.1 then twp.w_height else p.1,
         if t.tl_cols_fixed = false ∧ twp.w_width < p.2 then twp.w_width else p.2)) (r, c) =
      (ws.foldl (fun a twp =>
         if t.tl_rows_fixed = false ∧ twp.w_height < a then twp.w_height else a) r,
       ws.foldl (fun a twp =>
         if t.tl_cols_fixed = false ∧ twp.w_width < a then twp.w_width else a) c) := by
  induction ws with
  | nil => intro r c; rfl
  | cons w rest ih => intro r c; simp only [List.foldl_cons]; exact ih _ _

theorem foldl_dim_not_fixed (b : Bool) (g : WinSize → Nat) (hb : b = false)
    (ws : List WinSize) : ∀ r : Nat,
      ws.foldl (fun a w => if b = false ∧ g w < a then g w else a) r =
        (ws.map g).foldl min r := by
  induction ws with
  | nil => intro r; rfl
  | cons w rest ih =>
    intro r
    simp only [List.foldl_cons, List.map_cons]
    have hstep : (if b = false ∧ g w < r then g w else r) = min r (g w) := by
      rw [hb]
      simp only [eq_self_iff_true, true_and, if_lt_min]
    rw [hstep]
    exact ih _

theorem foldl_dim_fixed (b : Bool) (g : WinSize → Nat) (hb : b = true)
    (ws : List WinSize) : ∀ r : Nat,
      ws.foldl (fun a w => if b = false ∧ g w < a then g w else a) r = r := by
  induction ws with
  | nil => intro r; rfl
  | cons w rest ih =>
    intro r
    simp only [List.foldl_cons]
    have hstep : (if b = false ∧ g w < r then g w else r) = r := by
      rw [hb]
      simp
    rw [hstep]
    exact ih _

/-- C4 (counterexample): a single observing window of height 0 (a zero-height
host window) makes the negotiation return 0 rows — the code has no lower
clamp, so the claimed "never below 1" fails. -/
theorem term_update_window_counterexample :
    term_update_window_resize ⟨24, 80, false, false⟩ ⟨0, 80⟩ [⟨0, 80⟩] =
      some (0, 80) ∧ ¬(1 ≤ (0 : Nat)) := by
  constructor
  · rfl
  · decide

/-- C4 (amended): when the negotiation fires, each non-pinned dimension of
the result is the minimum of that dimension over all host windows showing the
session (it never exceeds any observer's viewport and is attained by one of
them — hence at least 1 whenever every observer reports at least 1), and each
pinned dimension keeps its pinned value.  There is no lower clamp: with an
observer of zero height the result is 0. -/
theorem term_update_window_min (t : TermSizeState) (wp : WinSize)
    (ws : List WinSize) (r c : Nat) (hmem : wp ∈ ws)
    (hres : term_update_window_resize t wp ws = some (r, c)) :
    (t.tl_rows_fixed = true → r = t.tl_rows) ∧
    (t.tl_rows_fixed = false →
      (∀ w ∈ ws, r ≤ w.w_height) ∧ (∃ w ∈ ws, r = w.w_height)) ∧
    (t.tl_cols_fixed = true → c = t.tl_cols) ∧
    (t.tl_cols_fixed = false →
      (∀ w ∈ ws, c ≤ w.w_width) ∧ (∃ w ∈ ws, c = w.w_width)) := by
  unfold term_update_window_resize at hres
  split at hres
  case isFalse => cases hres
  case isTrue hguard =>
    rw [resize_foldl_split] at hres
    rw [Option.some_inj, Prod.mk.injEq] at hres
    obtain ⟨h1, h2⟩ := hres
    refine ⟨?_, ?_, ?_, ?_⟩
    · intro hf
      rw [foldl_dim_fixed _ _ hf, if_pos hf] at h1
      exact h1.symm
    · intro hf
      rw [foldl_dim_not_fixed _ _ hf, hf] at h1
      simp only [Bool.false_eq_true, if_false] at h1
      constructor
      · intro w hw
        rw [← h1]
        exact foldl_min_le_mem _ _ _ (List.mem_map_of_mem _ hw)
      · rcases foldl_min_mem (ws.map (fun w => w.w_height)) wp.w_height with hm | hm
        · exact ⟨wp, hmem, by rw [← h1, hm]⟩
        · rcases List.mem_map.mp hm with ⟨w, hw, hweq⟩
          exact ⟨w, hw, by rw [← h1, ← hweq]⟩
    · intro hf
      rw [foldl_dim_fixed _ _ hf, if_pos hf] at h2
      exact h2.symm
    · intro hf
      rw [foldl_dim_not_fixed _ _ hf, hf] at h2
      simp only [Bool.false_eq_true, if_false] at h2
      constructor
      · intro w hw
        rw [← h2]
        exact foldl_min_le_mem _ _ _ (List.mem_map_of_mem _ hw)
      · rcases foldl_min_mem (ws.map (fun w => w.w_width)) wp.w_width with hm | hm
        · exact ⟨wp, hmem, by rw [← h2, hm]⟩
        · rcases List.mem_map.mp hm with ⟨w, hw, hweq⟩
          exact ⟨w, hw, by rw [← h2, ← hweq]⟩

/-- C4 (witness): the specification's scenario — two windows of heights 24
and 30 showing the session, nothing pinned — negotiates 24 rows; the theorem
applied there yields the observer bounds. -/
theorem term_update_window_min_witness :
    (∀ w ∈ ([⟨24, 80⟩, ⟨30, 80⟩] : List WinSize), 24 ≤ w.w_height) ∧
    (∃ w ∈ ([⟨24, 80⟩, ⟨30, 80⟩] : List WinSize), 24 = w.w_height) :=
  (term_update_window_min ⟨10, 80, false, false⟩ ⟨24, 80⟩ [⟨24, 80⟩, ⟨30, 80⟩]
    24 80 (by decide) (by rfl)).2.1 rfl

theorem getD_mem_of_lt {α : Type} (l : List α) (n : Nat) (d : α)
    (h : n < l.length) : l.getD n d ∈ l := by
  rw [List.getD_eq_getElem l d h]
  exact List.getElem_mem h

/-- C9: for a finished session, the per-position attribute lookup over a
well-formed scrollback store is total: it returns 0 when the 1-based row
exceeds the store's length or the column is at or beyond the row's captured
width, and otherwise the attribute derived from the stored cell. -/
theorem term_get_attr_total (cfg : AttrCfg) (t : TermBuf) (lnum col : Nat)
    (hwf : sb_wf t.tl_scrollback = true) (h1 : 1 ≤ lnum) :
    (t.tl_scrollback.length < lnum → term_get_attr cfg t lnum col = some 0) ∧
    (lnum ≤ t.tl_scrollback.length →
      ((t.tl_scrollback.getD (lnum - 1) ⟨0, none⟩).sb_cols ≤ col →
        term_get_attr cfg t lnum col = some 0) ∧
      (∀ cells, (t.tl_scrollback.getD (lnum - 1) ⟨0, none⟩).sb_cells = some cells →
        col < (t.tl_scrollback.getD (lnum - 1) ⟨0, none⟩).sb_cols →
        term_get_attr cfg t lnum col =
          some (cell2attr cfg (cells.getD col zero_cell)))) ∧
    (term_get_attr cfg t lnum col).isSome = true := by
  unfold term_get_attr
  by_cases hrange : t.tl_scrollback.length < lnum
  · rw [if_pos hrange]
    exact ⟨fun _ => rfl, fun hle => absurd hle (by omega), rfl⟩
  · rw [if_neg hrange, if_neg (by omega : ¬lnum = 0)]
    have hlt : lnum - 1 < t.tl_scrollback.length := by omega
    have hmem := getD_mem_of_lt t.tl_scrollback (lnum - 1) ⟨0, none⟩ hlt
    have hwfl : sb_line_wf (t.tl_scrollback.getD (lnum - 1) ⟨0, none⟩) = true :=
      (List.all_eq_true.mp hwf) _ hmem
    refine ⟨fun h => absurd h (by omega), fun _ => ⟨?_, ?_⟩, ?_⟩
    · intro hcol
      rw [if_pos hcol]
    · intro cells hcells hcol
      rw [if_neg (by omega : ¬(t.tl_scrollback.getD (lnum - 1) ⟨0, none⟩).sb_cols ≤ col)]
      rw [hcells]
    · by_cases hcol : (t.tl_scrollback.getD (lnum - 1) ⟨0, none⟩).sb_cols ≤ col
      · rw [if_pos hcol]; rfl
      · rw [if_neg hcol]
        unfold sb_line_wf at hwfl
        rcases hcells : (t.tl_scrollback.getD (lnum - 1) ⟨0, none⟩).sb_cells with _ | cells
        · rw [hcells] at hwfl
          simp only [beq_iff_eq] at hwfl
          omega
        · rfl

/-- C9 (witness): the lookup at a concrete one-entry store — in-range cell,
column past the width, and row past the store. -/
theorem term_get_attr_total_witness :
    (term_get_attr ⟨2, 8, 4, 32, 1, fun _ _ => 0, 16, fun a f b => a + f + b⟩
      ⟨none, [⟨1, some [zero_cell]⟩], 1, [[]], false, true⟩ 1 5 = some 0) ∧
    (term_get_attr ⟨2, 8, 4, 32, 1, fun _ _ => 0, 16, fun a f b => a + f + b⟩
      ⟨none, [⟨1, some [zero_cell]⟩], 1, [[]], false, true⟩ 7 0 = some 0) := by
  constructor
  · exact ((term_get_attr_total ⟨2, 8, 4, 32, 1, fun _ _ => 0, 16, fun a f b => a + f + b⟩
      ⟨none, [⟨1, some [zero_cell]⟩], 1, [[]], false, true⟩ 1 5 (by decide)
      (by decide)).2.1 (by decide)).1 (by decide)
  · exact (term_get_attr_total ⟨2, 8, 4, 32, 1, fun _ _ => 0, 16, fun a f b => a + f + b⟩
      ⟨none, [⟨1, some [zero_cell]⟩], 1, [[]], false, true⟩ 7 0 (by decide)
      (by decide)).1 (by decide)

/-- C8: once the engine handle is gone (`tl_vterm == NULL`), writing job
output to the session feeds nothing and flushes nothing, and
`term_sendkeys` sends zero bytes to the channel — both become no-ops. -/
theorem engine_absent_noop (charlen : List Nat → Nat) (enc : VTermEnc)
    (env : MouseEnv) (t : TermIO) (msg : List Nat) (keys : List Nat)
    (h : t.tl_vterm = none) :
    write_to_term charlen t msg = (t, [], false) ∧
    f_term_sendkeys enc env t keys = ([], t) := by
  unfold write_to_term f_term_sendkeys
  rw [h]
  exact ⟨rfl, rfl⟩

/-- C8 (witness): both no-ops at a concrete engine-absent session. -/
theorem engine_absent_noop_witness :
    write_to_term (fun _ => 1) ⟨none⟩ [104, 105] = (⟨none⟩, [], false) ∧
    f_term_sendkeys ⟨fun _ _ => [27], fun c _ => [c], fun _ _ => [27], [], []⟩
      ⟨true, false⟩ ⟨none⟩ [104, 105] = ([], ⟨none⟩) :=
  engine_absent_noop (fun _ => 1) ⟨fun _ _ => [27], fun c _ => [c], fun _ _ => [27], [], []⟩
    ⟨true, false⟩ ⟨none⟩ [104, 105] [104, 105] rfl

theorem vterm_output_read_len (vt : VTermModel) (n : Nat) :
    (vterm_output_read vt n).1.length ≤ n := by
  simp only [vterm_output_read, List.length_take]
  omega

/-- C10: for every input key code, the key-to-bytes translation produces at
most `KEY_BUF_LEN` (200) bytes — the returned list is exactly what is written
into the caller's `msg[KEY_BUF_LEN]` buffer, so it can never be overrun —
and every dropped key produces exactly zero bytes. -/
theorem term_convert_key_bound (enc : VTermEnc) (vt : VTermModel) (c : TermKey) :
    (term_convert_key enc vt c).1.length ≤ KEY_BUF_LEN ∧
    (drop_key c = true → (term_convert_key enc vt c).1.length = 0) := by
  cases c <;> refine ⟨?_, ?_⟩ <;>
    first
      | exact vterm_output_read_len _ _
      | exact fun h => rfl
      | exact fun h => nomatch h
      | exact Nat.zero_le _

/-- C10 (witness): a dropped key produces zero bytes, and a key whose
encoding exceeds the buffer is truncated to at most 200 bytes, at a concrete
encoder whose escape sequence is 300 bytes long. -/
theorem term_convert_key_bound_witness :
    (term_convert_key ⟨fun _ _ => List.replicate 300 27, fun c _ => [c],
        fun _ _ => [27], [], []⟩ ⟨[]⟩ .K_UNDO).1.length = 0 ∧
    (term_convert_key ⟨fun _ _ => List.replicate 300 27, fun c _ => [c],
        fun _ _ => [27], [], []⟩ ⟨[]⟩ .K_DOWN).1.length ≤ KEY_BUF_LEN := by
  constructor
  · exact (term_convert_key_bound ⟨fun _ _ => List.replicate 300 27, fun c _ => [c],
      fun _ _ => [27], [], []⟩ ⟨[]⟩ .K_UNDO).2 rfl
  · exact (term_convert_key_bound ⟨fun _ _ => List.replicate 300 27, fun c _ => [c],
      fun _ _ => [27], [], []⟩ ⟨[]⟩ .K_DOWN).1

theorem getD_drop_nat (l : List Nat) (k s : Nat) :
    (l.drop k).getD s 0 = l.getD (k + s) 0 := by
  simp only [List.getD_eq_getElem?_getD, List.getElem?_drop]

theorem scan_to_nl_take (charlen : List Nat → Nat)
    (h2 : ∀ l : List Nat, ∀ x ∈ (l.drop 1).take (charlen l - 1), x ≠ 10) :
    ∀ l : List Nat, ∀ x ∈ l.take (scan_to_nl charlen l), x ≠ 10 := by
  have main : ∀ N : Nat, ∀ l : List Nat, l.length ≤ N →
      ∀ x ∈ l.take (scan_to_nl charlen l), x ≠ 10 := by
    intro N
    induction N with
    | zero =>
      intro l hl x hx
      have hnil : l = [] := List.length_eq_zero.mp (by omega)
      subst hnil
      simp at hx
    | succ N ih =>
      intro l hl x hx
      cases l with
      | nil => simp at hx
      | cons b rest =>
        simp only [List.length_cons] at hl
        by_cases hb : b = 10
        · simp only [scan_to_nl, if_pos hb, List.take_zero] at hx
          cases hx
        · simp only [scan_to_nl, if_neg hb] at hx
          rw [List.take_add] at hx
          rcases List.mem_append.mp hx with hx1 | hx2
          · obtain ⟨m, hm⟩ : ∃ m, max 1 (charlen (b :: rest)) = m + 1 :=
              ⟨max 1 (charlen (b :: rest)) - 1, by omega⟩
            rw [hm, List.take_succ_cons] at hx1
            rcases List.mem_cons.mp hx1 with hx1 | hx1
            · rw [hx1]; exact hb
            · by_cases hcl : charlen (b :: rest) ≤ 1
              · have hm0 : m = 0 := by omega
                rw [hm0] at hx1
                cases hx1
              · have hmc : m = charlen (b :: rest) - 1 := by omega
                rw [hmc] at hx1
                exact h2 (b :: rest) x hx1
          · refine ih ((b :: rest).drop (max 1 (charlen (b :: rest)))) ?_ x hx2
            simp only [List.length_drop, List.length_cons]
            omega
  intro l
  exact main l.length l (le_refl _)

theorem scan_to_nl_getD (charlen : List Nat → Nat) :
    ∀ l : List Nat, scan_to_nl charlen l < l.length →
      l.getD (scan_to_nl charlen l) 0 = 10 := by
  have main : ∀ N : Nat, ∀ l : List Nat, l.length ≤ N →
      scan_to_nl charlen l < l.length → l.getD (scan_to_nl charlen l) 0 = 10 := by
    intro N
    induction N with
    | zero =>
      intro l hl hs
      omega
    | succ N ih =>
      intro l hl hs
      cases l with
      | nil => simp at hs
      | cons b rest =>
        simp only [List.length_cons] at hl
        by_cases hb : b = 10
        · simp only [scan_to_nl, if_pos hb, List.getD_cons_zero]
          exact hb
        · simp only [scan_to_nl, if_neg hb, List.length_cons] at hs ⊢
          rw [← getD_drop_nat]
          refine ih ((b :: rest).drop (max 1 (charlen (b :: rest)))) ?_ ?_
          · simp only [List.length_drop, List.length_cons]
            omega
          · simp only [List.length_drop, List.length_cons]
            omega
  intro l
  exact main l.length l (le_refl _)

theorem lf_to_crlf_append (a : List Nat) :
    ∀ b : List Nat, lf_to_crlf (a ++ b) = lf_to_crlf a ++ lf_to_crlf b := by
  induction a with
  | nil => intro b; rfl
  | cons x xs ih =>
    intro b
    show lf_to_crlf (x :: (xs ++ b)) = lf_to_crlf (x :: xs) ++ lf_to_crlf b
    rw [lf_to_crlf, lf_to_crlf]
    by_cases hx : x = 10
    · rw [if_pos hx, if_pos hx, ih b]
      rfl
    · rw [if_neg hx, if_neg hx, ih b]
      rfl

theorem lf_to_crlf_of_no_nl (a : List Nat) (h : ∀ x ∈ a, x ≠ 10) :
    lf_to_crlf a = a := by
  induction a with
  | nil => rfl
  | cons x xs ih =>
    rw [lf_to_crlf, if_neg (h x (List.mem_cons_self _ _))]
    rw [ih (fun y hy => h y (List.mem_cons_of_mem _ hy))]

theorem list_decomp_at (l : List Nat) (n : Nat) (hn : n < l.length) :
    l = l.take n ++ l.getD n 0 :: l.drop (n + 1) := by
  conv_lhs => rw [← List.take_append_drop n l]
  rw [List.drop_eq_getElem_cons hn, List.getD_eq_getElem l 0 hn]

/-- C6: `term_write_job_output` feeds the chunk to the engine split at every
line feed, each line feed becoming the two bytes CR LF, all other bytes
(lone carriage returns included) unchanged and in order, and requests a
damage flush before returning.  The hypotheses are the contract of the
external multibyte stepper `utf_ptr2len_len`: it advances at least one byte,
and the trail bytes it skips are never line feeds (validated trail bytes lie
in 0x80..0xBF). -/
theorem term_write_job_output_crlf (charlen : List Nat → Nat)
    (h1 : ∀ l : List Nat, 1 ≤ charlen l)
    (h2 : ∀ l : List Nat, ∀ x ∈ (l.drop 1).take (charlen l - 1), x ≠ 10)
    (msg : List Nat) :
    (term_write_job_output charlen msg).1.flatten = lf_to_crlf msg ∧
    (term_write_job_output charlen msg).2 = true := by
  refine ⟨?_, rfl⟩
  unfold term_write_job_output
  have main : ∀ N : Nat, ∀ l : List Nat, l.length ≤ N →
      (twjo_go charlen l).flatten = lf_to_crlf l := by
    intro N
    induction N with
    | zero =>
      intro l hl
      have hnil : l = [] := List.length_eq_zero.mp (by omega)
      subst hnil
      simp [twjo_go, lf_to_crlf]
    | succ N ih =>
      intro l hl
      cases l with
      | nil => simp [twjo_go, lf_to_crlf]
      | cons b rest =>
        simp only [List.length_cons] at hl
        simp only [twjo_go]
        by_cases hc : scan_to_nl charlen (b :: rest) < (b :: rest).length ∧
            (b :: rest).getD (scan_to_nl charlen (b :: rest)) 0 = 10
        · rw [if_pos hc]
          simp only [List.flatten_cons]
          rw [ih ((b :: rest).drop (scan_to_nl charlen (b :: rest) + 1))
            (by simp only [List.length_drop, List.length_cons]; omega)]
          conv_rhs => rw [list_decomp_at (b :: rest) (scan_to_nl charlen (b :: rest)) hc.1]
          rw [lf_to_crlf_append, hc.2]
          rw [lf_to_crlf_of_no_nl _ (scan_to_nl_take charlen h2 (b :: rest))]
          rw [lf_to_crlf, if_pos rfl]
          simp
        · rw [if_neg hc]
          simp only [List.flatten_cons, List.flatten_nil, List.append_nil]
          have hge : (b :: rest).length ≤ scan_to_nl charlen (b :: rest) := by
            by_contra hlt
            exact hc ⟨by omega, scan_to_nl_getD charlen (b :: rest) (by omega)⟩
          rw [List.take_of_length_le hge]
          rw [lf_to_crlf_of_no_nl _ (fun x hx => scan_to_nl_take charlen h2 (b :: rest) x
            (by rwa [List.take_of_length_le hge]))]
  exact main msg.length msg (le_refl _)

/-- C6 (witness): the normalization at a concrete chunk containing a line
feed and a lone carriage return, with the single-byte stepper. -/
theorem term_write_job_output_crlf_witness :
    (term_write_job_output (fun _ => 1) [104, 10, 13, 98]).1.flatten =
      lf_to_crlf [104, 10, 13, 98] ∧
    (term_write_job_output (fun _ => 1) [104, 10, 13, 98]).2 = true :=
  term_write_job_output_crlf (fun _ => 1) (fun _ => le_refl 1)
    (fun l x hx => by simp at hx) [104, 10, 13, 98]

theorem append_sb_line_scrollback (line : sb_line_T) (t : TermBuf) :
    (append_sb_line line t).tl_scrollback = t.tl_scrollback ++ [line] := by
  unfold append_sb_line add_scrollback_line_to_buffer
  split <;> rfl

theorem append_sb_line_fields (line : sb_line_T) (t : TermBuf) :
    (append_sb_line line t).tl_screen = t.tl_screen ∧
    (append_sb_line line t).tl_scrollback_scrolled = t.tl_scrollback_scrolled ∧
    (append_sb_line line t).tl_terminal_mode = t.tl_terminal_mode ∧
    (append_sb_line line t).tl_channel_closed = t.tl_channel_closed := by
  unfold append_sb_line add_scrollback_line_to_buffer
  split <;> exact ⟨rfl, rfl, rfl, rfl⟩

theorem add_empty_lines_scrollback (sk : Nat) : ∀ t : TermBuf,
    (add_empty_lines sk t).tl_scrollback =
      t.tl_scrollback ++ List.replicate sk ⟨0, none⟩ := by
  induction sk with
  | zero => intro t; simp [add_empty_lines]
  | succ sk ih =>
    intro t
    rw [add_empty_lines, ih, append_sb_line_scrollback]
    rw [List.append_assoc, List.singleton_append, ← List.replicate_succ]

theorem add_empty_lines_fields (sk : Nat) : ∀ t : TermBuf,
    (add_empty_lines sk t).tl_screen = t.tl_screen ∧
    (add_empty_lines sk t).tl_scrollback_scrolled = t.tl_scrollback_scrolled ∧
    (add_empty_lines sk t).tl_terminal_mode = t.tl_terminal_mode ∧
    (add_empty_lines sk t).tl_channel_closed = t.tl_channel_closed := by
  induction sk with
  | zero => intro t; exact ⟨rfl, rfl, rfl, rfl⟩
  | succ sk ih =>
    intro t
    rw [add_empty_lines]
    obtain ⟨h1, h2, h3, h4⟩ := ih (append_sb_line ⟨0, none⟩ t)
    obtain ⟨g1, g2, g3, g4⟩ := append_sb_line_fields ⟨0, none⟩ t
    exact ⟨h1.trans g1, h2.trans g2, h3.trans g3, h4.trans g4⟩

theorem mttb_go_scrollback (rows : List (List VTermScreenCell)) :
    ∀ (idx sk : Nat) (t : TermBuf),
      (mttb_go alloc_all rows idx sk t).tl_scrollback =
        t.tl_scrollback ++
          (if trim_trailing_empty rows = [] then []
           else List.replicate sk ⟨0, none⟩ ++ (trim_trailing_empty rows).map row_entry) := by
  induction rows with
  | nil => intro idx sk t; simp [mttb_go, trim_trailing_empty]
  | cons r rest ih =>
    intro idx sk t
    by_cases hlen : eff_width r = 0
    · rw [show mttb_go alloc_all (r :: rest) idx sk t =
          mttb_go alloc_all rest (idx + 1) (sk + 1) t by
        simp [mttb_go, hlen]]
      rw [ih]
      by_cases htr : trim_trailing_empty rest = []
      · have htrc : trim_trailing_empty (r :: rest) = [] := by
          rw [trim_trailing_empty, htr]
          simp [hlen]
        rw [if_pos htr, htrc, if_pos rfl]
      · have htrc : trim_trailing_empty (r :: rest) = r :: trim_trailing_empty rest := by
          rw [trim_trailing_empty]
          simp [htr, List.isEmpty_iff]
        rw [if_neg htr, htrc, if_neg (by simp)]
        rw [List.map_cons]
        rw [show row_entry r = ⟨0, none⟩ by simp [row_entry, hlen]]
        rw [List.replicate_succ']
        simp [List.append_assoc]
    · rw [show mttb_go alloc_all (r :: rest) idx sk t =
          mttb_go alloc_all rest (idx + 1) 0
            (append_sb_line ⟨eff_width r, some (r.take (eff_width r))⟩
              (add_empty_lines sk t)) by
        simp [mttb_go, hlen, alloc_all]]
      rw [ih]
      rw [append_sb_line_scrollback, add_empty_lines_scrollback]
      have htrc : trim_trailing_empty (r :: rest) = r :: trim_trailing_empty rest := by
        rw [trim_trailing_empty]
        simp [hlen]
      have hre : row_entry r = ⟨eff_width r, some (r.take (eff_width r))⟩ := by
        simp [row_entry, hlen]
      by_cases htr : trim_trailing_empty rest = []
      · rw [if_pos htr, htrc, if_neg (by simp), htr]
        simp [hre, List.append_assoc]
      · rw [if_neg htr, htrc, if_neg (by simp)]
        simp [hre, List.append_assoc]

theorem mttb_go_fields (rows : List (List VTermScreenCell)) :
    ∀ (idx sk : Nat) (t : TermBuf),
      (mttb_go alloc_all rows idx sk t).tl_screen = t.tl_screen ∧
      (mttb_go alloc_all rows idx sk t).tl_scrollback_scrolled = t.tl_scrollback_scrolled ∧
      (mttb_go alloc_all rows idx sk t).tl_terminal_mode = t.tl_terminal_mode ∧
      (mttb_go alloc_all rows idx sk t).tl_channel_closed = t.tl_channel_closed := by
  induction rows with
  | nil => intro idx sk t; exact ⟨rfl, rfl, rfl, rfl⟩
  | cons r rest ih =>
    intro idx sk t
    by_cases hlen : eff_width r = 0
    · rw [show mttb_go alloc_all (r :: rest) idx sk t =
          mttb_go alloc_all rest (idx + 1) (sk + 1) t by
        simp [mttb_go, hlen]]
      exact ih _ _ t
    · rw [show mttb_go alloc_all (r :: rest) idx sk t =
          mttb_go alloc_all rest (idx + 1) 0
            (append_sb_line ⟨eff_width r, some (r.take (eff_width r))⟩
              (add_empty_lines sk t)) by
        simp [mttb_go, hlen, alloc_all]]
      obtain ⟨h1, h2, h3, h4⟩ := ih (idx + 1) 0
        (append_sb_line ⟨eff_width r, some (r.take (eff_width r))⟩ (add_empty_lines sk t))
      obtain ⟨g1, g2, g3, g4⟩ := append_sb_line_fields
        ⟨eff_width r, some (r.take (eff_width r))⟩ (add_empty_lines sk t)
      obtain ⟨f1, f2, f3, f4⟩ := add_empty_lines_fields sk t
      exact ⟨(h1.trans g1).trans f1, (h2.trans g2).trans f2,
             (h3.trans g3).trans f3, (h4.trans g4).trans f4⟩

theorem handle_pushline_len (t : TermBuf) (r : List VTermScreenCell) :
    (handle_pushline true true t r).tl_scrollback.length =
      t.tl_scrollback.length + 1 := by
  unfold handle_pushline add_scrollback_line_to_buffer
  rw [if_pos rfl]
  simp [List.getLast?_concat]

/-- C3: the Scrollback Store grows by exactly one entry per push-line event,
so N push-line events with non-empty rows on a fresh store leave N entries;
and the final flush stores exactly the screen rows up to the last non-empty
one — each run of skipped empty rows materialized as zero-width entries, the
non-empty rows with their trimmed widths, and trailing empty rows never
stored. -/
theorem scrollback_count (rows : List (List VTermScreenCell)) (t : TermBuf)
    (screen : List (List VTermScreenCell))
    (hne : ∀ r ∈ rows, eff_width r ≠ 0) (hscr : t.tl_screen = some screen) :
    ((rows.foldl (fun acc r => handle_pushline true true acc r) t).tl_scrollback.length
        = t.tl_scrollback.length + rows.length) ∧
    ((move_terminal_to_buffer alloc_all t).tl_scrollback
        = t.tl_scrollback ++ (trim_trailing_empty screen).map row_entry) := by
  constructor
  · clear hscr
    induction rows generalizing t with
    | nil => simp
    | cons r rest ih =>
      simp only [List.foldl_cons, List.length_cons]
      rw [ih (handle_pushline true true t r) (fun x hx => hne x (List.mem_cons_of_mem _ hx))]
      rw [handle_pushline_len]
      omega
  · unfold move_terminal_to_buffer
    rw [hscr]
    rw [mttb_go_scrollback]
    by_cases htr : trim_trailing_empty screen = []
    · rw [if_pos htr, htr]
      simp
    · rw [if_neg htr]
      simp

/-- C3 (witness): two non-empty push-line events leave two entries, and a
flush of a screen whose rows are (empty, non-empty, empty) stores exactly
two entries — one zero-width entry for the skipped row, one captured row —
and drops the trailing empty row. -/
theorem scrollback_count_witness :
    (([[⟨[65], 1, ⟨0, 0, 0⟩, ⟨0, 0, 0⟩, ⟨false, false, false, false, false⟩⟩],
       [⟨[66], 1, ⟨0, 0, 0⟩, ⟨0, 0, 0⟩, ⟨false, false, false, false, false⟩⟩]].foldl
        (fun acc r => handle_pushline true true acc r)
        ⟨some [[zero_cell]], [], 0, [[]], false, false⟩).tl_scrollback.length = 0 + 2) ∧
    ((move_terminal_to_buffer alloc_all
        ⟨some [[zero_cell],
               [⟨[65], 1, ⟨0, 0, 0⟩, ⟨0, 0, 0⟩, ⟨false, false, false, false, false⟩⟩],
               [zero_cell]], [], 0, [[]], false, false⟩).tl_scrollback =
      [] ++ (trim_trailing_empty
        [[zero_cell],
         [⟨[65], 1, ⟨0, 0, 0⟩, ⟨0, 0, 0⟩, ⟨false, false, false, false, false⟩⟩],
         [zero_cell]]).map row_entry) := by
  constructor
  · exact (scrollback_count
      [[⟨[65], 1, ⟨0, 0, 0⟩, ⟨0, 0, 0⟩, ⟨false, false, false, false, false⟩⟩],
       [⟨[66], 1, ⟨0, 0, 0⟩, ⟨0, 0, 0⟩, ⟨false, false, false, false, false⟩⟩]]
      ⟨some [[zero_cell]], [], 0, [[]], false, false⟩ [[zero_cell]]
      (by decide) rfl).1
  · exact (scrollback_count []
      ⟨some [[zero_cell],
             [⟨[65], 1, ⟨0, 0, 0⟩, ⟨0, 0, 0⟩, ⟨false, false, false, false, false⟩⟩],
             [zero_cell]], [], 0, [[]], false, false⟩
      [[zero_cell],
       [⟨[65], 1, ⟨0, 0, 0⟩, ⟨0, 0, 0⟩, ⟨false, false, false, false, false⟩⟩],
       [zero_cell]]
      (by decide) rfl).2

/-- C7 (code bug): when the cell-array allocation fails during a push-line
event of a row with non-empty content, `handle_pushline` still stores the
entry with `sb_cols = len > 0` and `sb_cells = NULL` — exactly the corrupt
state the claim rules out (and `add_scrollback_line_to_buffer` then
dereferences the NULL array).  The flush path (`move_terminal_to_buffer`)
drops such rows instead, as the claim describes. -/
theorem handle_pushline_alloc_corruption :
    (∃ l ∈ (handle_pushline true false
        ⟨some [], [], 0, [[]], false, false⟩
        [⟨[65], 1, ⟨0, 0, 0⟩, ⟨0, 0, 0⟩, ⟨false, false, false, false, false⟩⟩]).tl_scrollback,
      0 < l.sb_cols ∧ l.sb_cells = none) ∧
    sb_wf (handle_pushline true false
        ⟨some [], [], 0, [[]], false, false⟩
        [⟨[65], 1, ⟨0, 0, 0⟩, ⟨0, 0, 0⟩, ⟨false, false, false, false, false⟩⟩]).tl_scrollback
      = false := by
  constructor
  · exact ⟨⟨1, none⟩, by decide, by decide, rfl⟩
  · rfl

theorem append_sb_line_buflen (line : sb_line_T) (t : TermBuf)
    (hb : t.tl_scrollback.length ≤ t.tl_buffer.length)
    (hb1 : 1 ≤ t.tl_buffer.length) :
    (append_sb_line line t).tl_buffer.length =
      if t.tl_scrollback.length = 0 then t.tl_buffer.length
      else t.tl_buffer.length + 1 := by
  unfold append_sb_line add_scrollback_line_to_buffer
  simp only [List.getLast?_concat]
  have hlnum : (t.tl_scrollback ++ [line]).length - 1 = t.tl_scrollback.length := by
    simp
  rw [hlnum]
  have hins : (t.tl_buffer.insertIdx t.tl_scrollback.length (sb_line_text line)).length =
      t.tl_buffer.length + 1 :=
    List.length_insertIdx _ _ hb
  by_cases h0 : t.tl_scrollback.length = 0
  · rw [if_pos h0, if_pos h0]
    unfold ml_delete
    rw [if_neg (by omega)]
    rw [List.length_eraseIdx_of_lt (by omega)]
    omega
  · rw [if_neg h0, if_neg h0]
    exact hins

theorem add_empty_lines_buflen (sk : Nat) : ∀ t : TermBuf,
    t.tl_scrollback.length ≤ t.tl_buffer.length → 1 ≤ t.tl_buffer.length →
    (add_empty_lines sk t).tl_buffer.length =
      t.tl_buffer.length + sk -
        (if t.tl_scrollback.length = 0 ∧ 1 ≤ sk then 1 else 0) := by
  induction sk with
  | zero =>
    intro t hb hb1
    simp [add_empty_lines]
  | succ sk ih =>
    intro t hb hb1
    rw [add_empty_lines]
    have hap := append_sb_line_buflen ⟨0, none⟩ t hb hb1
    have hlen2 : (append_sb_line ⟨0, none⟩ t).tl_scrollback.length =
        t.tl_scrollback.length + 1 := by
      rw [append_sb_line_scrollback]
      simp
    have hb' : (append_sb_line ⟨0, none⟩ t).tl_scrollback.length ≤
        (append_sb_line ⟨0, none⟩ t).tl_buffer.length := by
      rw [hlen2, hap]
      split <;> omega
    have hb1' : 1 ≤ (append_sb_line ⟨0, none⟩ t).tl_buffer.length := by
      rw [hap]
      split <;> omega
    have hrec := ih _ hb' hb1'
    rw [hlen2, hap] at hrec
    rw [if_neg (show ¬(t.tl_scrollback.length + 1 = 0 ∧ 1 ≤ sk) from
      fun hc => by omega)] at hrec
    rw [hrec]
    by_cases h0 : t.tl_scrollback.length = 0
    · rw [if_pos h0,
        if_pos (show t.tl_scrollback.length = 0 ∧ 1 ≤ sk + 1 from ⟨h0, by omega⟩)]
      omega
    · rw [if_neg h0,
        if_neg (show ¬(t.tl_scrollback.length = 0 ∧ 1 ≤ sk + 1) from
          fun hc => h0 hc.1)]
      omega

theorem mttb_go_buflen (rows : List (List VTermScreenCell)) :
    ∀ (idx sk : Nat) (t : TermBuf),
      t.tl_scrollback.length ≤ t.tl_buffer.length → 1 ≤ t.tl_buffer.length →
      (mttb_go alloc_all rows idx sk t).tl_buffer.length =
        t.tl_buffer.length
          + ((mttb_go alloc_all rows idx sk t).tl_scrollback.length
              - t.tl_scrollback.length)
          - (if t.tl_scrollback.length = 0 ∧
               t.tl_scrollback.length < (mttb_go alloc_all rows idx sk t).tl_scrollback.length
             then 1 else 0) := by
  induction rows with
  | nil =>
    intro idx sk t hb hb1
    simp [mttb_go]
  | cons r rest ih =>
    intro idx sk t hb hb1
    by_cases hlen : eff_width r = 0
    · rw [show mttb_go alloc_all (r :: rest) idx sk t =
          mttb_go alloc_all rest (idx + 1) (sk + 1) t by
        simp [mttb_go, hlen]]
      exact ih _ _ t hb hb1
    · rw [show mttb_go alloc_all (r :: rest) idx sk t =
          mttb_go alloc_all rest (idx + 1) 0
            (append_sb_line ⟨eff_width r, some (r.take (eff_width r))⟩
              (add_empty_lines sk t)) by
        simp [mttb_go, hlen, alloc_all]]
      have e1 : (add_empty_lines sk t).tl_scrollback.length =
          t.tl_scrollback.length + sk := by
        rw [add_empty_lines_scrollback]
        simp
      have e2 := add_empty_lines_buflen sk t hb hb1
      have hbA : (add_empty_lines sk t).tl_scrollback.length ≤
          (add_empty_lines sk t).tl_buffer.length := by
        rw [e1, e2]
        split <;> omega
      have hbA1 : 1 ≤ (add_empty_lines sk t).tl_buffer.length := by
        rw [e2]
        split <;> omega
      have e3 : (append_sb_line ⟨eff_width r, some (r.take (eff_width r))⟩
          (add_empty_lines sk t)).tl_scrollback.length =
          t.tl_scrollback.length + sk + 1 := by
        rw [append_sb_line_scrollback]
        simp [e1]
      have e4 := append_sb_line_buflen
        ⟨eff_width r, some (r.take (eff_width r))⟩ (add_empty_lines sk t) hbA hbA1
      rw [e1] at e4
      have hbB : (append_sb_line ⟨eff_width r, some (r.take (eff_width r))⟩
          (add_empty_lines sk t)).tl_scrollback.length ≤
          (append_sb_line ⟨eff_width r, some (r.take (eff_width r))⟩
          (add_empty_lines sk t)).tl_buffer.length := by
        rw [e3, e4, e2]
        split_ifs <;> omega
      have hbB1 : 1 ≤ (append_sb_line ⟨eff_width r, some (r.take (eff_width r))⟩
          (add_empty_lines sk t)).tl_buffer.length := by
        rw [e4, e2]
        split_ifs <;> omega
      have e5 := ih (idx + 1) 0
        (append_sb_line ⟨eff_width r, some (r.take (eff_width r))⟩
          (add_empty_lines sk t)) hbB hbB1
      have e6 : (append_sb_line ⟨eff_width r, some (r.take (eff_width r))⟩
          (add_empty_lines sk t)).tl_scrollback.length ≤
          (mttb_go alloc_all rest (idx + 1) 0
            (append_sb_line ⟨eff_width r, some (r.take (eff_width r))⟩
              (add_empty_lines sk t))).tl_scrollback.length := by
        rw [mttb_go_scrollback]
        simp
      rw [e3] at e5 e6
      rw [if_neg (show ¬(t.tl_scrollback.length + sk + 1 = 0 ∧
          t.tl_scrollback.length + sk + 1 <
            (mttb_go alloc_all rest (idx + 1) 0
              (append_sb_line ⟨eff_width r, some (r.take (eff_width r))⟩
                (add_empty_lines sk t))).tl_scrollback.length) from
        fun hc => by omega)] at e5
      rw [e5, e4, e2]
      by_cases h0 : t.tl_scrollback.length = 0
      · rw [if_pos (show t.tl_scrollback.length = 0 ∧ t.tl_scrollback.length <
            (mttb_go alloc_all rest (idx + 1) 0
              (append_sb_line ⟨eff_width r, some (r.take (eff_width r))⟩
                (add_empty_lines sk t))).tl_scrollback.length from ⟨h0, by omega⟩)]
        by_cases hsk : 1 ≤ sk
        · rw [if_pos (show t.tl_scrollback.length = 0 ∧ 1 ≤ sk from ⟨h0, hsk⟩),
            if_neg (show ¬(t.tl_scrollback.length + sk = 0) from by omega)]
          omega
        · rw [if_neg (show ¬(t.tl_scrollback.length = 0 ∧ 1 ≤ sk) from
              fun hc => hsk hc.2),
            if_pos (show t.tl_scrollback.length + sk = 0 from by omega)]
          omega
      · rw [if_neg (show ¬(t.tl_scrollback.length = 0 ∧ t.tl_scrollback.length <
            (mttb_go alloc_all rest (idx + 1) 0
              (append_sb_line ⟨eff_width r, some (r.take (eff_width r))⟩
                (add_empty_lines sk t))).tl_scrollback.length) from
            fun hc => h0 hc.1),
          if_neg (show ¬(t.tl_scrollback.length = 0 ∧ 1 ≤ sk) from fun hc => h0 hc.1),
          if_neg (show ¬(t.tl_scrollback.length + sk = 0) from fun hc => h0 (by omega))]
        omega

theorem leave_loop_pos (K : Nat) : ∀ (t : TermBuf) (fuel : Nat),
    1 ≤ t.tl_scrollback_scrolled →
    t.tl_scrollback.length = t.tl_scrollback_scrolled + K →
    t.tl_buffer.length = t.tl_scrollback.length →
    K + 1 ≤ fuel →
    ∃ t', leave_loop fuel t = some t' ∧
      t'.tl_buffer.length = t.tl_scrollback_scrolled ∧
      t'.tl_scrollback = t.tl_scrollback.take t.tl_scrollback_scrolled ∧
      t'.tl_scrollback_scrolled = t.tl_scrollback_scrolled ∧
      t'.tl_screen = t.tl_screen ∧
      t'.tl_terminal_mode = t.tl_terminal_mode ∧
      t'.tl_channel_closed = t.tl_channel_closed := by
  induction K with
  | zero =>
    intro t fuel h1 hsb hbuf hfuel
    cases fuel with
    | zero => omega
    | succ f =>
      rw [leave_loop, if_neg (by omega)]
      exact ⟨t, rfl, by omega, (List.take_of_length_le (by omega)).symm,
        rfl, rfl, rfl, rfl⟩
  | succ K ih =>
    intro t fuel h1 hsb hbuf hfuel
    cases fuel with
    | zero => omega
    | succ f =>
      rw [leave_loop, if_pos (by omega)]
      have hne : ¬(t.tl_scrollback.isEmpty = true) := by
        rw [List.isEmpty_iff]
        intro hnil
        rw [hnil] at hsb
        simp at hsb
        omega
      rw [if_neg hne]
      have hbl : (ml_delete t.tl_buffer t.tl_buffer.length).length =
          t.tl_buffer.length - 1 := by
        unfold ml_delete
        rw [if_neg (by omega)]
        rw [List.length_eraseIdx_of_lt (by omega)]
      have hsl : t.tl_scrollback.dropLast.length = t.tl_scrollback.length - 1 := by
        simp
      rw [if_neg (show ¬(({ t with
          tl_buffer := ml_delete t.tl_buffer t.tl_buffer.length,
          tl_scrollback := t.tl_scrollback.dropLast } : TermBuf).tl_scrollback.isEmpty
            = true) from by
        simp only [List.isEmpty_iff]
        intro hnil
        have := congrArg List.length hnil
        simp only [List.length_dropLast, List.length_nil] at this
        omega)]
      obtain ⟨t', he, p1, p2, p3, p4, p5, p6⟩ := ih
        { t with tl_buffer := ml_delete t.tl_buffer t.tl_buffer.length,
                 tl_scrollback := t.tl_scrollback.dropLast } f
        (by simpa using h1)
        (by simp only [List.length_dropLast]; omega)
        (by simp only [hbl, List.length_dropLast]; omega)
        (by omega)
      refine ⟨t', he, by simpa using p1, ?_, by simpa using p3,
        by simpa using p4, by simpa using p5, by simpa using p6⟩
      rw [p2]
      simp only [List.dropLast_eq_take]
      rw [List.take_take]
      congr 1
      omega

theorem leave_loop_zero (K : Nat) : ∀ (t : TermBuf) (fuel : Nat),
    t.tl_scrollback_scrolled = 0 →
    t.tl_scrollback.length = K →
    t.tl_buffer.length = K →
    1 ≤ K → K ≤ fuel →
    ∃ t', leave_loop fuel t = some t' ∧
      t'.tl_buffer.length = 1 ∧ t'.tl_scrollback = [] ∧
      t'.tl_scrollback_scrolled = 0 ∧ t'.tl_screen = t.tl_screen ∧
      t'.tl_terminal_mode = t.tl_terminal_mode ∧
      t'.tl_channel_closed = t.tl_channel_closed := by
  induction K with
  | zero => intro t fuel _ _ _ h1 _; omega
  | succ K ih =>
    intro t fuel h0 hsb hbuf h1 hfuel
    cases fuel with
    | zero => omega
    | succ f =>
      rw [leave_loop, if_pos (by omega)]
      have hne : ¬(t.tl_scrollback.isEmpty = true) := by
        rw [List.isEmpty_iff]
        intro hnil
        rw [hnil] at hsb
        simp at hsb
      rw [if_neg hne]
      by_cases hK : K = 0
      · rw [if_pos (show (({ t with
            tl_buffer := ml_delete t.tl_buffer t.tl_buffer.length,
            tl_scrollback := t.tl_scrollback.dropLast } : TermBuf).tl_scrollback.isEmpty
              = true) from by
          simp only [List.isEmpty_iff]
          rw [← List.length_eq_zero]
          simp only [List.length_dropLast]
          omega)]
        refine ⟨_, rfl, ?_, ?_, by simpa using h0, rfl, rfl, rfl⟩
        · show (ml_delete t.tl_buffer t.tl_buffer.length).length = 1
          unfold ml_delete
          rw [if_pos (by omega)]
          rfl
        · show t.tl_scrollback.dropLast = []
          rw [← List.length_eq_zero]
          simp only [List.length_dropLast]
          omega
      · rw [if_neg (show ¬(({ t with
            tl_buffer := ml_delete t.tl_buffer t.tl_buffer.length,
            tl_scrollback := t.tl_scrollback.dropLast } : TermBuf).tl_scrollback.isEmpty
              = true) from by
          simp only [List.isEmpty_iff]
          intro hnil
          have := congrArg List.length hnil
          simp only [List.length_dropLast, List.length_nil] at this
          omega)]
        have hbl : (ml_delete t.tl_buffer t.tl_buffer.length).length =
            t.tl_buffer.length - 1 := by
          unfold ml_delete
          rw [if_neg (by omega)]
          rw [List.length_eraseIdx_of_lt (by omega)]
        obtain ⟨t', he, p1, p2, p3, p4, p5, p6⟩ := ih
          { t with tl_buffer := ml_delete t.tl_buffer t.tl_buffer.length,
                   tl_scrollback := t.tl_scrollback.dropLast } f
          (by simpa using h0)
          (by simp only [List.length_dropLast]; omega)
          (by simp only [hbl]; omega)
          (by omega) (by omega)
        exact ⟨t', he, p1, p2, p3, by simpa using p4, by simpa using p5,
          by simpa using p6⟩

theorem stm_screen (t : TermBuf) (v : Bool) :
    (set_terminal_mode t v).tl_screen = t.tl_screen := rfl

theorem stm_scrollback (t : TermBuf) (v : Bool) :
    (set_terminal_mode t v).tl_scrollback = t.tl_scrollback := rfl

theorem stm_scrolled (t : TermBuf) (v : Bool) :
    (set_terminal_mode t v).tl_scrollback_scrolled = t.tl_scrollback_scrolled := rfl

theorem stm_buffer (t : TermBuf) (v : Bool) :
    (set_terminal_mode t v).tl_buffer = t.tl_buffer := rfl

theorem stm_closed (t : TermBuf) (v : Bool) :
    (set_terminal_mode t v).tl_channel_closed = t.tl_channel_closed := rfl

/-- C1 (counterexample): a session with an all-empty screen, empty scrollback
and scrolled = 0 (e.g. Terminal-Normal mode entered before any output):
entering flushes nothing, and the resume loop then frees the entry at
`ga_data[-1]` (`ga_len` is 0 when the loop body runs) — undefined behaviour,
modelled as `none` — instead of restoring the line count. -/
theorem term_enter_leave_counterexample :
    term_leave_terminal_mode alloc_all (term_enter_terminal_mode alloc_all
      ⟨some [[zero_cell]], [], 0, [[]], false, false⟩) = none := rfl

/-- C1 (amended): for a live session whose state satisfies the system
invariants (store length = scrolled counter, buffer length = max(scrolled,1),
channel open), entering Terminal-Normal mode and resuming is a no-op on the
host buffer's line count and on the scrollback store — exactly the rows added
by the flush are removed again — provided the store is nonempty after the
flush (some row was ever pushed, or the flush materializes at least one row).
In the remaining corner (empty store, all-empty screen) the resume loop
underflows the scrollback array instead. -/
theorem term_enter_leave_roundtrip (t : TermBuf)
    (rows : List (List VTermScreenCell))
    (hscr : t.tl_screen = some rows)
    (hsb : t.tl_scrollback.length = t.tl_scrollback_scrolled)
    (hbuf : t.tl_buffer.length = max t.tl_scrollback_scrolled 1)
    (hcl : t.tl_channel_closed = false)
    (hnz : 1 ≤ t.tl_scrollback_scrolled ∨ trim_trailing_empty rows ≠ []) :
    ∃ t', term_leave_terminal_mode alloc_all (term_enter_terminal_mode alloc_all t)
        = some t' ∧
      t'.tl_buffer.length = t.tl_buffer.length ∧
      t'.tl_scrollback = t.tl_scrollback := by
  have hmv : term_enter_terminal_mode alloc_all t =
      set_terminal_mode (mttb_go alloc_all rows 0 0 t) true := by
    unfold term_enter_terminal_mode move_terminal_to_buffer
    rw [hscr]
  have hb0 : t.tl_scrollback.length ≤ t.tl_buffer.length := by omega
  have hb01 : 1 ≤ t.tl_buffer.length := by omega
  have hst : (mttb_go alloc_all rows 0 0 t).tl_scrollback =
      t.tl_scrollback ++ (trim_trailing_empty rows).map row_entry := by
    rw [mttb_go_scrollback]
    by_cases htr : trim_trailing_empty rows = []
    · rw [if_pos htr, htr]
      simp
    · rw [if_neg htr]
      simp
  have hstlen : (mttb_go alloc_all rows 0 0 t).tl_scrollback.length =
      t.tl_scrollback.length + (trim_trailing_empty rows).length := by
    rw [hst]
    simp
  have hbl := mttb_go_buflen rows 0 0 t hb0 hb01
  obtain ⟨hf1, hf2, hf3, hf4⟩ := mttb_go_fields rows 0 0 t
  rw [hmv]
  unfold term_leave_terminal_mode
  by_cases hS : 1 ≤ t.tl_scrollback_scrolled
  · -- live scrollback present: the loop stops at scrolled without
    -- touching the store below it
    have hFbuf : (mttb_go alloc_all rows 0 0 t).tl_buffer.length =
        t.tl_scrollback_scrolled + (trim_trailing_empty rows).length := by
      rw [hbl]
      rw [if_neg (show ¬(t.tl_scrollback.length = 0 ∧
          t.tl_scrollback.length <
            (mttb_go alloc_all rows 0 0 t).tl_scrollback.length) from
        fun hc => by omega)]
      omega
    obtain ⟨t1, heq, p1, p2, p3, p4, p5, p6⟩ :=
      leave_loop_pos (trim_trailing_empty rows).length
        (set_terminal_mode (mttb_go alloc_all rows 0 0 t) true)
        ((set_terminal_mode (mttb_go alloc_all rows 0 0 t) true).tl_scrollback.length + 1)
        (by rw [stm_scrolled, hf2]; exact hS)
        (by rw [stm_scrollback, stm_scrolled, hf2, hstlen, hsb])
        (by rw [stm_buffer, stm_scrollback]; omega)
        (by rw [stm_scrollback]; omega)
    rw [heq]
    have hcl1 : t1.tl_channel_closed = false := by
      rw [p6, stm_closed, hf4]
      exact hcl
    refine ⟨set_terminal_mode t1 false, ?_, ?_, ?_⟩
    · show some (if (set_terminal_mode t1 false).tl_channel_closed = true
          then cleanup_vterm alloc_all (set_terminal_mode t1 false)
          else set_terminal_mode t1 false) = some (set_terminal_mode t1 false)
      rw [if_neg (show ¬((set_terminal_mode t1 false).tl_channel_closed = true) from by
        rw [stm_closed, hcl1]
        simp)]
    · rw [stm_buffer, p1, stm_scrolled, hf2]
      omega
    · rw [stm_scrollback, p2, stm_scrolled, stm_scrollback, hf2, hst]
      exact List.take_left' hsb
  · -- empty scrollback: the flush materializes at least one row and the
    -- loop drains the store, leaving the single placeholder line
    have hS0 : t.tl_scrollback_scrolled = 0 := by omega
    have htr : trim_trailing_empty rows ≠ [] := by
      rcases hnz with h | h
      · omega
      · exact h
    have hK : 1 ≤ (trim_trailing_empty rows).length :=
      List.length_pos.mpr htr
    have hB1 : t.tl_buffer.length = 1 := by omega
    have hFbuf : (mttb_go alloc_all rows 0 0 t).tl_buffer.length =
        (trim_trailing_empty rows).length := by
      rw [hbl]
      rw [if_pos (show t.tl_scrollback.length = 0 ∧
          t.tl_scrollback.length <
            (mttb_go alloc_all rows 0 0 t).tl_scrollback.length from
        ⟨by omega, by omega⟩)]
      omega
    obtain ⟨t1, heq, p1, p2, p3, p4, p5, p6⟩ :=
      leave_loop_zero (trim_trailing_empty rows).length
        (set_terminal_mode (mttb_go alloc_all rows 0 0 t) true)
        ((set_terminal_mode (mttb_go alloc_all rows 0 0 t) true).tl_scrollback.length + 1)
        (by rw [stm_scrolled, hf2]; exact hS0)
        (by rw [stm_scrollback, hstlen]; omega)
        (by rw [stm_buffer, hFbuf])
        hK
        (by rw [stm_scrollback]; omega)
    rw [heq]
    have hcl1 : t1.tl_channel_closed = false := by
      rw [p6, stm_closed, hf4]
      exact hcl
    refine ⟨set_terminal_mode t1 false, ?_, ?_, ?_⟩
    · show some (if (set_terminal_mode t1 false).tl_channel_closed = true
          then cleanup_vterm alloc_all (set_terminal_mode t1 false)
          else set_terminal_mode t1 false) = some (set_terminal_mode t1 false)
      rw [if_neg (show ¬((set_terminal_mode t1 false).tl_channel_closed = true) from by
        rw [stm_closed, hcl1]
        simp)]
    · rw [stm_buffer, p1]
      omega
    · rw [stm_scrollback, p2]
      symm
      rw [← List.length_eq_zero]
      omega

/-- C1 (witness): the round trip at a concrete live session — empty
scrollback, a screen with one non-empty row — restores the single buffer
line and the empty store. -/
theorem term_enter_leave_roundtrip_witness :
    ∃ t', term_leave_terminal_mode alloc_all (term_enter_terminal_mode alloc_all
        ⟨some [[⟨[65], 1, ⟨0, 0, 0⟩, ⟨0, 0, 0⟩, ⟨false, false, false, false, false⟩⟩,
                zero_cell], [zero_cell, zero_cell]], [], 0, [[]], false, false⟩)
      = some t' ∧
      t'.tl_buffer.length =
        (⟨some [[⟨[65], 1, ⟨0, 0, 0⟩, ⟨0, 0, 0⟩, ⟨false, false, false, false, false⟩⟩,
                 zero_cell], [zero_cell, zero_cell]], [], 0, [[]], false,
              false⟩ : TermBuf).tl_buffer.length ∧
      t'.tl_scrollback = [] :=
  term_enter_leave_roundtrip
    ⟨some [[⟨[65], 1, ⟨0, 0, 0⟩, ⟨0, 0, 0⟩, ⟨false, false, false, false, false⟩⟩,
            zero_cell], [zero_cell, zero_cell]], [], 0, [[]], false, false⟩
    [[⟨[65], 1, ⟨0, 0, 0⟩, ⟨0, 0, 0⟩, ⟨false, false, false, false, false⟩⟩,
      zero_cell], [zero_cell, zero_cell]]
    rfl rfl (by decide) rfl (Or.inr (by decide))
